import Mathlib

/-!
# Verification of the Spacelift worker-pool autoscaler core

This development embeds the core data model and algorithms of the
`ec2-workerpool-autoscaler` repository in Lean 4 and proves (or refutes)
the specification claims about them.

The repository contains two co-existing generations of the core:

* the EC2-only generation: `internal/state.go` (`State`, `ScalableWorkers`,
  `StrayInstances`, `detachedNotTerminatedInstances`, `Decide`,
  `determineScaleUp`, `determineScaleDown`), `internal/controller.go`
  (`GetWorkerPool`, `DrainWorker`, `KillInstance`) and
  `internal/auto_scaler.go` (`Scale`), plus an older `State` variant
  (method `Decision`, `IdleWorkers`, a `StrayInstances` without the
  drained-worker branch) that ships in the same tree;
* the multi-cloud generation (`part_018`): a `Scale` reconciler with a
  capacity sanity check, per-candidate error counting and different
  stray/busy-worker behaviour.

Go slices are embedded as `List`, Go `int`/`int32` arithmetic as `Int`
(no value in the program can plausibly approach 2^31, and the spec fixes
"signed integers wide enough for plausible fleet sizes"), Go `time.Time`
values as integer Unix seconds, and fallible calls as `Except`/`Option`
oracles.  Worker metadata is embedded as the parsed JSON object
(a key/value list), which is how both the spec (§3) and the code use it.
-/

/-- A Spacelift worker, `internal/worker.go` (`type Worker struct`).
`metadata` is the parsed JSON object of the `Metadata` string field. -/
structure Worker where
  id : String
  busy : Bool
  createdAt : Int
  drained : Bool
  metadata : List (String × String)
deriving Repr, DecidableEq

/-- `internal/worker_pool_details.go` (`type WorkerPool struct`). -/
structure WorkerPool where
  pendingRuns : Int
  workers : List Worker
deriving Repr, DecidableEq

/-- One member instance of the scaling group (AWS SDK
`autoscaling/types.Instance`, and `part_018`'s `type Instance struct`).
`launchTime` is Unix seconds. -/
structure InstanceRec where
  instanceId : String
  launchTime : Int
  lifecycleState : String
deriving Repr, DecidableEq

/-- The scaling group (AWS SDK `types.AutoScalingGroup` restricted to the
fields the program reads, and `part_018`'s `AutoScalingGroup`). -/
structure AutoScalingGroup where
  name : String
  minSize : Int
  maxSize : Int
  desiredCapacity : Int
  instances : List InstanceRec
deriving Repr, DecidableEq

/-- `internal/decision.go` (`type ScalingDirection int`). -/
inductive ScalingDirection where
  | none
  | up
  | down
deriving Repr, DecidableEq

/-- `internal/decision.go` (`type Decision struct`).  Go's zero value for
`ScalingSize` is `0`, so branches that do not set it produce `0`. -/
structure Decision where
  scalingDirection : ScalingDirection
  scalingSize : Int
  comments : List String
deriving Repr, DecidableEq

/-- The runtime configuration fields the core reads
(`internal/runtime_config.go`). -/
structure RuntimeConfig where
  autoscalingScaleDownDelay : Int
  autoscalingMaxKill : Int
  autoscalingMaxCreate : Int
  autoscalingCapacitySanityCheck : Int
deriving Repr, DecidableEq

/-- `Worker.metadataValue` (`internal/worker.go`): look the key up in the
parsed metadata object; a missing key is an error (Go also returns the
zero string `""` alongside the error). -/
def Worker.metadataValue (w : Worker) (key : String) : Except String String :=
  match w.metadata.lookup key with
  | some v => Except.ok v
  | none => Except.error s!"metadata {key} not present"

/-- The value half of `metadataValue`: Go callers that ignore the error
observe `""` for a missing key. -/
def Worker.metadataValueD (w : Worker) (key : String) : String :=
  match w.metadata.lookup key with
  | some v => v
  | none => ""

/-- `Worker.InstanceIdentity` (`internal/worker.go`): reads the `asg_id`
and `instance_id` metadata keys; the two lookup errors are joined.  The
returned pair carries the Go zero values on error, exactly as Go callers
that discard the error see them. -/
def Worker.instanceIdentity (w : Worker) : (String × String) × Bool :=
  ((w.metadataValueD "asg_id", w.metadataValueD "instance_id"),
   (w.metadataValue "asg_id").isOk && (w.metadataValue "instance_id").isOk)

/-- The Go constant `types.LifecycleStateInService`. -/
def lifecycleStateInService : String := "InService"

/-- The set (Go map keys) `inServiceInstanceIDs` built by `NewState`
(`internal/state.go` lines 60-66): ids of instances whose lifecycle state
is `InService`.  Go map iteration order is unspecified; we fix the
first-occurrence order and state claims at membership level. -/
def inServiceInstanceIDs (asg : AutoScalingGroup) : List String :=
  ((asg.instances.filter (fun i => i.lifecycleState = lifecycleStateInService)).map
    (fun i => i.instanceId)).dedup

/-- The Go map `workersByInstanceID` built by `NewState`
(`internal/state.go` lines 42-58), as an association list: a later worker
with the same instance id overwrites an earlier one, exactly like a Go
map assignment. -/
def workersByInstanceID (wp : WorkerPool) : List (String × Worker) :=
  wp.workers.foldl
    (fun m w =>
      let iid := (w.instanceIdentity).1.2
      if m.lookup iid |>.isSome then m.map (fun p => if p.1 = iid then (iid, w) else p)
      else m ++ [(iid, w)])
    []

/-- `NewState` validation (`internal/state.go` lines 21-75): the three-
argument EC2 variant.  ASG field presence is implicit in our record type;
the worker checks are: metadata parses/has the keys, the group id is
non-empty, and it equals the ASG name. -/
def newStateChecks (wp : WorkerPool) (asg : AutoScalingGroup) : Except String Unit :=
  wp.workers.foldlM
    (fun _ w =>
      let idn := w.instanceIdentity
      if !idn.2 then Except.error s!"worker {w.id} has invalid metadata"
      else if idn.1.1 = "" then Except.error s!"worker {w.id} has empty ASG ID in metadata"
      else if idn.1.1 ≠ asg.name then
        Except.error s!"worker {w.id} has incorrect ASG: {idn.1.1} (expected: {asg.name})"
      else Except.ok ())
    ()

/-- `State.ScalableWorkers` (`internal/state.go` lines 78-99): idle
workers, and — only when `AutoscalingScaleDownDelay` is non-zero — only
those whose creation time plus the delay (minutes) is strictly in the
past.  `now` is the wall clock (`time.Now()`), an input of the embedding. -/
def scalableWorkers (wp : WorkerPool) (cfg : RuntimeConfig) (now : Int) : List Worker :=
  wp.workers.filter
    (fun w =>
      !w.busy &&
        (cfg.autoscalingScaleDownDelay == 0 ||
          now > w.createdAt + 60 * cfg.autoscalingScaleDownDelay))

/-- `State.detachedNotTerminatedInstances` (`internal/state.go` lines
116-134): instance ids of drained workers whose instance is no longer in
the ASG instance list. -/
def detachedNotTerminatedInstances (wp : WorkerPool) (asg : AutoScalingGroup) : List String :=
  ((workersByInstanceID wp).filter
    (fun p => p.2.drained && !(asg.instances.map (fun i => i.instanceId)).contains p.1)).map
    (fun p => p.1)

/-- `State.StrayInstances` (`internal/state.go` lines 103-114): in-service
instances with no corresponding worker, plus the detached-but-not-
terminated instances. -/
def strayInstances (wp : WorkerPool) (asg : AutoScalingGroup) : List String :=
  (inServiceInstanceIDs asg).filter
      (fun iid => !((workersByInstanceID wp).lookup iid).isSome)
    ++ detachedNotTerminatedInstances wp asg

/-- `State.determineScaleUp` (`internal/state.go` lines 162-194). -/
def determineScaleUp (wp : WorkerPool) (asg : AutoScalingGroup)
    (missingWorkers maxCreate : Int) : Decision :=
  if (wp.workers.length : Int) ≥ asg.maxSize then
    { scalingDirection := .none, scalingSize := 0,
      comments := ["autoscaling group is already at maximum size"] }
  else
    let comments : List String :=
      if missingWorkers > maxCreate then
        [s!"need {missingWorkers} workers, but can only create {maxCreate}"]
      else []
    let missing := if missingWorkers > maxCreate then maxCreate else missingWorkers
    let newASGCapacity := asg.desiredCapacity + missing
    if newASGCapacity ≤ asg.maxSize then
      { scalingDirection := .up, scalingSize := missing,
        comments := comments ++ [s!"adding {missing} workers to match pending runs"] }
    else
      let scalingSize := asg.maxSize - asg.desiredCapacity
      { scalingDirection := .up, scalingSize := scalingSize,
        comments := comments ++
          [s!"adding {scalingSize} workers to match pending runs, up to the ASG max size"] }

/-- `State.determineScaleDown` (`internal/state.go` lines 196-221). -/
def determineScaleDown (wp : WorkerPool) (asg : AutoScalingGroup)
    (extraWorkers maxKill : Int) : Decision :=
  if (wp.workers.length : Int) ≤ asg.minSize then
    { scalingDirection := .none, scalingSize := 0,
      comments := ["autoscaling group is already at minimum size"] }
  else
    let comments1 : List String :=
      if extraWorkers > maxKill then
        [s!"need to kill {extraWorkers} workers, but can only kill {maxKill}"]
      else []
    let extra1 := if extraWorkers > maxKill then maxKill else extraWorkers
    let overMinimum := asg.desiredCapacity - asg.minSize
    let comments2 : List String :=
      if extra1 > overMinimum then
        comments1 ++
          [s!"need to kill {extra1} workers, but can't get below minimum size of {asg.minSize}"]
      else comments1
    let extra2 := if extra1 > overMinimum then overMinimum else extra1
    { scalingDirection := .down, scalingSize := extra2,
      comments := comments2 ++ [s!"removing {extra2} idle workers"] }

/-- `State.Decide` (`internal/state.go` lines 136-160). -/
def Decide (wp : WorkerPool) (asg : AutoScalingGroup) (cfg : RuntimeConfig) (now : Int)
    (maxCreate maxKill : Int) : Decision :=
  if wp.workers.length ≠ asg.instances.length then
    { scalingDirection := .none, scalingSize := 0,
      comments := ["number of workers does not match the number of instances in the ASG"] }
  else
    let scalable := scalableWorkers wp cfg now
    let difference : Int := wp.pendingRuns - scalable.length
    if difference > 0 then determineScaleUp wp asg difference maxCreate
    else if difference < 0 then determineScaleDown wp asg (-difference) maxKill
    else
      { scalingDirection := .none, scalingSize := 0,
        comments := ["autoscaling group exactly at the right size"] }

/-- C1: `Decide` returns `None` on a worker/instance count mismatch;
otherwise, with `diff = PendingRuns − |ScalableWorkers|`, it returns
`None` for `diff = 0`; for `diff > 0` it returns `None` at max size and
otherwise `Up(min(Desired + min(diff, maxCreate), Max) − Desired)`; for
`diff < 0` it returns `None` at min size and otherwise
`Down(min(−diff, maxKill, Desired − Min))`. -/
theorem claim1_decide_formula (wp : WorkerPool) (asg : AutoScalingGroup)
    (cfg : RuntimeConfig) (now maxCreate maxKill : Int) :
    ((Decide wp asg cfg now maxCreate maxKill).scalingDirection,
      (Decide wp asg cfg now maxCreate maxKill).scalingSize) =
    (if wp.workers.length ≠ asg.instances.length then (ScalingDirection.none, (0 : Int))
     else
       let diff : Int := wp.pendingRuns - (scalableWorkers wp cfg now).length
       if diff = 0 then (ScalingDirection.none, 0)
       else if diff > 0 then
         if (wp.workers.length : Int) ≥ asg.maxSize then (ScalingDirection.none, 0)
         else (ScalingDirection.up,
           min (asg.desiredCapacity + min diff maxCreate) asg.maxSize - asg.desiredCapacity)
       else
         if (wp.workers.length : Int) ≤ asg.minSize then (ScalingDirection.none, 0)
         else (ScalingDirection.down,
           min (min (-diff) maxKill) (asg.desiredCapacity - asg.minSize))) := by
  unfold Decide determineScaleUp determineScaleDown
  dsimp only []
  split_ifs with h₁ h₂ h₃ h₄ h₅ h₆ h₇ h₈ h₉ h₁₀ h₁₁ h₁₂ h₁₃ h₁₄ <;>
    simp_all <;> omega

/-- C4 counterexample: a snapshot the spec explicitly allows
(`DesiredCapacity = 10` outside `[MinSize, MaxSize] = [0, 5]`, two busy
workers, two instances, three pending runs, `maxCreate = 3`,
`maxKill = 1`) makes `Decide` return `Up(-5)`: a negative scaling size,
violating `0 ≤ ScalingSize`. -/
theorem claim4_counterexample :
    (Decide
        { pendingRuns := 3,
          workers :=
            [{ id := "w1", busy := true, createdAt := 0, drained := false, metadata := [] },
             { id := "w2", busy := true, createdAt := 0, drained := false, metadata := [] }] }
        { name := "g", minSize := 0, maxSize := 5, desiredCapacity := 10,
          instances :=
            [{ instanceId := "i1", launchTime := 0, lifecycleState := "InService" },
             { instanceId := "i2", launchTime := 0, lifecycleState := "InService" }] }
        { autoscalingScaleDownDelay := 0, autoscalingMaxKill := 1,
          autoscalingMaxCreate := 3, autoscalingCapacitySanityCheck := 10 }
        0 3 1).scalingDirection = ScalingDirection.up ∧
    (Decide
        { pendingRuns := 3,
          workers :=
            [{ id := "w1", busy := true, createdAt := 0, drained := false, metadata := [] },
             { id := "w2", busy := true, createdAt := 0, drained := false, metadata := [] }] }
        { name := "g", minSize := 0, maxSize := 5, desiredCapacity := 10,
          instances :=
            [{ instanceId := "i1", launchTime := 0, lifecycleState := "InService" },
             { instanceId := "i2", launchTime := 0, lifecycleState := "InService" }] }
        { autoscalingScaleDownDelay := 0, autoscalingMaxKill := 1,
          autoscalingMaxCreate := 3, autoscalingCapacitySanityCheck := 10 }
        0 3 1).scalingSize = -5 := by
  constructor <;> rfl

/-- C4 (amended): when additionally `MinSize ≤ DesiredCapacity ≤ MaxSize`
holds on the snapshot (and the limits are non-negative), every decision
satisfies the claimed bounds: `0 ≤ n ≤ maxCreate` and
`Desired + n ≤ MaxSize` for `Up(n)`; `0 ≤ n ≤ maxKill` and
`Desired − n ≥ MinSize` for `Down(n)`. -/
theorem claim4_amended_decision_bounds (wp : WorkerPool) (asg : AutoScalingGroup)
    (cfg : RuntimeConfig) (now maxCreate maxKill : Int)
    (hc : 0 ≤ maxCreate) (hk : 0 ≤ maxKill)
    (hlo : asg.minSize ≤ asg.desiredCapacity) (hhi : asg.desiredCapacity ≤ asg.maxSize) :
    ((Decide wp asg cfg now maxCreate maxKill).scalingDirection = ScalingDirection.up →
      0 ≤ (Decide wp asg cfg now maxCreate maxKill).scalingSize ∧
      (Decide wp asg cfg now maxCreate maxKill).scalingSize ≤ maxCreate ∧
      asg.desiredCapacity + (Decide wp asg cfg now maxCreate maxKill).scalingSize ≤
        asg.maxSize) ∧
    ((Decide wp asg cfg now maxCreate maxKill).scalingDirection = ScalingDirection.down →
      0 ≤ (Decide wp asg cfg now maxCreate maxKill).scalingSize ∧
      (Decide wp asg cfg now maxCreate maxKill).scalingSize ≤ maxKill ∧
      asg.minSize ≤ asg.desiredCapacity -
        (Decide wp asg cfg now maxCreate maxKill).scalingSize) := by
  unfold Decide determineScaleUp determineScaleDown
  dsimp only []
  split_ifs <;> simp_all <;> omega

/-- C4 witness: the amended bounds applied to a concrete in-range
snapshot. -/
theorem claim4_amended_decision_bounds_witness :
    (0 : Int) ≤ 2 ∧ (0 : Int) ≤ 1 ∧ (1 : Int) ≤ 2 ∧ (2 : Int) ≤ 3 ∧
    (((Decide
        { pendingRuns := 0,
          workers :=
            [{ id := "w1", busy := false, createdAt := 1, drained := false, metadata := [] },
             { id := "w2", busy := false, createdAt := 2, drained := false, metadata := [] }] }
        { name := "g", minSize := 1, maxSize := 3, desiredCapacity := 2,
          instances :=
            [{ instanceId := "i1", launchTime := 0, lifecycleState := "InService" },
             { instanceId := "i2", launchTime := 0, lifecycleState := "InService" }] }
        { autoscalingScaleDownDelay := 0, autoscalingMaxKill := 1,
          autoscalingMaxCreate := 2, autoscalingCapacitySanityCheck := 10 }
        100 2 1).scalingDirection = ScalingDirection.up →
      0 ≤ (Decide
        { pendingRuns := 0,
          workers :=
            [{ id := "w1", busy := false, createdAt := 1, drained := false, metadata := [] },
             { id := "w2", busy := false, createdAt := 2, drained := false, metadata := [] }] }
        { name := "g", minSize := 1, maxSize := 3, desiredCapacity := 2,
          instances :=
            [{ instanceId := "i1", launchTime := 0, lifecycleState := "InService" },
             { instanceId := "i2", launchTime := 0, lifecycleState := "InService" }] }
        { autoscalingScaleDownDelay := 0, autoscalingMaxKill := 1,
          autoscalingMaxCreate := 2, autoscalingCapacitySanityCheck := 10 }
        100 2 1).scalingSize ∧
      (Decide
        { pendingRuns := 0,
          workers :=
            [{ id := "w1", busy := false, createdAt := 1, drained := false, metadata := [] },
             { id := "w2", busy := false, createdAt := 2, drained := false, metadata := [] }] }
        { name := "g", minSize := 1, maxSize := 3, desiredCapacity := 2,
          instances :=
            [{ instanceId := "i1", launchTime := 0, lifecycleState := "InService" },
             { instanceId := "i2", launchTime := 0, lifecycleState := "InService" }] }
        { autoscalingScaleDownDelay := 0, autoscalingMaxKill := 1,
          autoscalingMaxCreate := 2, autoscalingCapacitySanityCheck := 10 }
        100 2 1).scalingSize ≤ 2 ∧
      (2 : Int) + (Decide
        { pendingRuns := 0,
          workers :=
            [{ id := "w1", busy := false, createdAt := 1, drained := false, metadata := [] },
             { id := "w2", busy := false, createdAt := 2, drained := false, metadata := [] }] }
        { name := "g", minSize := 1, maxSize := 3, desiredCapacity := 2,
          instances :=
            [{ instanceId := "i1", launchTime := 0, lifecycleState := "InService" },
             { instanceId := "i2", launchTime := 0, lifecycleState := "InService" }] }
        { autoscalingScaleDownDelay := 0, autoscalingMaxKill := 1,
          autoscalingMaxCreate := 2, autoscalingCapacitySanityCheck := 10 }
        100 2 1).scalingSize ≤ 3) ∧
    ((Decide
        { pendingRuns := 0,
          workers :=
            [{ id := "w1", busy := false, createdAt := 1, drained := false, metadata := [] },
             { id := "w2", busy := false, createdAt := 2, drained := false, metadata := [] }] }
        { name := "g", minSize := 1, maxSize := 3, desiredCapacity := 2,
          instances :=
            [{ instanceId := "i1", launchTime := 0, lifecycleState := "InService" },
             { instanceId := "i2", launchTime := 0, lifecycleState := "InService" }] }
        { autoscalingScaleDownDelay := 0, autoscalingMaxKill := 1,
          autoscalingMaxCreate := 2, autoscalingCapacitySanityCheck := 10 }
        100 2 1).scalingDirection = ScalingDirection.down →
      0 ≤ (Decide
        { pendingRuns := 0,
          workers :=
            [{ id := "w1", busy := false, createdAt := 1, drained := false, metadata := [] },
             { id := "w2", busy := false, createdAt := 2, drained := false, metadata := [] }] }
        { name := "g", minSize := 1, maxSize := 3, desiredCapacity := 2,
          instances :=
            [{ instanceId := "i1", launchTime := 0, lifecycleState := "InService" },
             { instanceId := "i2", launchTime := 0, lifecycleState := "InService" }] }
        { autoscalingScaleDownDelay := 0, autoscalingMaxKill := 1,
          autoscalingMaxCreate := 2, autoscalingCapacitySanityCheck := 10 }
        100 2 1).scalingSize ∧
      (Decide
        { pendingRuns := 0,
          workers :=
            [{ id := "w1", busy := false, createdAt := 1, drained := false, metadata := [] },
             { id := "w2", busy := false, createdAt := 2, drained := false, metadata := [] }] }
        { name := "g", minSize := 1, maxSize := 3, desiredCapacity := 2,
          instances :=
            [{ instanceId := "i1", launchTime := 0, lifecycleState := "InService" },
             { instanceId := "i2", launchTime := 0, lifecycleState := "InService" }] }
        { autoscalingScaleDownDelay := 0, autoscalingMaxKill := 1,
          autoscalingMaxCreate := 2, autoscalingCapacitySanityCheck := 10 }
        100 2 1).scalingSize ≤ 1 ∧
      (1 : Int) ≤ 2 - (Decide
        { pendingRuns := 0,
          workers :=
            [{ id := "w1", busy := false, createdAt := 1, drained := false, metadata := [] },
             { id := "w2", busy := false, createdAt := 2, drained := false, metadata := [] }] }
        { name := "g", minSize := 1, maxSize := 3, desiredCapacity := 2,
          instances :=
            [{ instanceId := "i1", launchTime := 0, lifecycleState := "InService" },
             { instanceId := "i2", launchTime := 0, lifecycleState := "InService" }] }
        { autoscalingScaleDownDelay := 0, autoscalingMaxKill := 1,
          autoscalingMaxCreate := 2, autoscalingCapacitySanityCheck := 10 }
        100 2 1).scalingSize)) :=
  ⟨by decide, by decide, by decide, by decide,
    claim4_amended_decision_bounds _ _ _ 100 2 1 (by decide) (by decide) (by decide) (by decide)⟩

/-- Sample snapshot for the C7 counterexample: one idle worker created at
time 0, one in-service instance, one pending run, and a configured
`ScaleDownDelay` of 1 minute. -/
def c7wp : WorkerPool :=
  { pendingRuns := 1,
    workers :=
      [{ id := "w1", busy := false, createdAt := 0, drained := false, metadata := [] }] }

/-- Sample ASG for the C7 counterexample. -/
def c7asg : AutoScalingGroup :=
  { name := "g", minSize := 0, maxSize := 3, desiredCapacity := 1,
    instances := [{ instanceId := "i1", launchTime := 0, lifecycleState := "InService" }] }

/-- Sample configuration for the C7 counterexample (`ScaleDownDelay = 1`). -/
def c7cfg : RuntimeConfig :=
  { autoscalingScaleDownDelay := 1, autoscalingMaxKill := 1,
    autoscalingMaxCreate := 1, autoscalingCapacitySanityCheck := 10 }

/-- C7 counterexample: with a non-zero `ScaleDownDelay`, `Decide` reads
the wall clock (`time.Now()` in `ScalableWorkers`), so two calls on the
same `State` with the same limits can disagree: at `now = 0` the worker
is inside its grace window (`Up` is returned), at `now = 100` it is
scalable (`None` is returned).  The current time is a hidden input. -/
theorem claim7_counterexample :
    Decide c7wp c7asg c7cfg 0 1 1 ≠ Decide c7wp c7asg c7cfg 100 1 1 := by
  decide

/-- C7 (amended): `Decide` is a deterministic function of the snapshot,
the limits, and the current time; with the default `ScaleDownDelay = 0`
the time has no influence, so any two calls on the same snapshot agree. -/
theorem claim7_amended_decide_time_independent (wp : WorkerPool) (asg : AutoScalingGroup)
    (cfg : RuntimeConfig) (t₁ t₂ maxCreate maxKill : Int)
    (h : cfg.autoscalingScaleDownDelay = 0) :
    Decide wp asg cfg t₁ maxCreate maxKill = Decide wp asg cfg t₂ maxCreate maxKill := by
  have hs : ∀ t, scalableWorkers wp cfg t = wp.workers.filter (fun w => !w.busy) := by
    intro t
    unfold scalableWorkers
    simp [h]
  unfold Decide
  rw [hs t₁, hs t₂]

/-- C7 witness: the amended statement at a concrete zero-delay
configuration and two distinct times. -/
theorem claim7_amended_decide_time_independent_witness :
    ({ autoscalingScaleDownDelay := 0, autoscalingMaxKill := 1,
       autoscalingMaxCreate := 1,
       autoscalingCapacitySanityCheck := 10 : RuntimeConfig }).autoscalingScaleDownDelay = 0 ∧
    Decide c7wp c7asg
        { autoscalingScaleDownDelay := 0, autoscalingMaxKill := 1,
          autoscalingMaxCreate := 1, autoscalingCapacitySanityCheck := 10 } 0 1 1 =
      Decide c7wp c7asg
        { autoscalingScaleDownDelay := 0, autoscalingMaxKill := 1,
          autoscalingMaxCreate := 1, autoscalingCapacitySanityCheck := 10 } 100 1 1 :=
  ⟨rfl, claim7_amended_decide_time_independent c7wp c7asg _ 0 100 1 1 rfl⟩

/-- `Controller.DrainWorker` (`internal/controller.go` lines 215-245),
embedded over an oracle `setDrain` giving the scheduler's response to
each `workerDrainSet` mutation (`workerDrainSet`, lines 295-321, performs
the GraphQL mutation and returns the post-mutation worker).  The result
pairs the Go return value `(drained, err)` — as `Except err Bool` — with
the trace of issued mutations `(workerID, drain-flag)`, in order. -/
def DrainWorker (setDrain : Bool → Except String Worker) (workerID : String) :
    Except String Bool × List (String × Bool) :=
  match setDrain true with
  | .error e => (.error s!"could not drain worker: {e}", [(workerID, true)])
  | .ok w =>
    if !w.busy then (.ok true, [(workerID, true)])
    else
      match setDrain false with
      | .error e =>
          (.error s!"could not undrain a busy worker: {e}", [(workerID, true), (workerID, false)])
      | .ok _ => (.ok false, [(workerID, true), (workerID, false)])

/-- C8: `DrainWorker` first issues the `drain = true` mutation; a
non-busy response yields `(drained = true, err = nil)` with no further
mutation; a busy response triggers the compensating `drain = false`
mutation, yielding `(drained = false, err = nil)` when the undo
succeeds; and the error is non-nil exactly when an issued mutation
failed. -/
theorem claim8_drain_worker (setDrain : Bool → Except String Worker) (workerID : String) :
    (DrainWorker setDrain workerID).2.head? = some (workerID, true) ∧
    (∀ w, setDrain true = .ok w → w.busy = false →
      (DrainWorker setDrain workerID).1 = .ok true ∧
      (DrainWorker setDrain workerID).2 = [(workerID, true)]) ∧
    (∀ w w', setDrain true = .ok w → w.busy = true → setDrain false = .ok w' →
      (DrainWorker setDrain workerID).1 = .ok false ∧
      (DrainWorker setDrain workerID).2 = [(workerID, true), (workerID, false)]) ∧
    (¬ (DrainWorker setDrain workerID).1.isOk ↔
      (∃ e, setDrain true = .error e) ∨
      (∃ w e, setDrain true = .ok w ∧ w.busy = true ∧ setDrain false = .error e)) := by
  unfold DrainWorker
  rcases h₁ : setDrain true with e₁ | w₁
  · simp [h₁, Except.isOk, Except.toBool]
  · rcases hb : w₁.busy with _ | _
    · simp [h₁, hb, Except.isOk, Except.toBool]
      intro w w' hw hbusy
      subst hw
      simp [hb] at hbusy
    · rcases h₂ : setDrain false with e₂ | w₂ <;>
        simp_all [Except.isOk, Except.toBool]

/-- The oracle for the C8 witness: the drain mutation reports a busy
worker, the undo succeeds. -/
def c8oracle : Bool → Except String Worker :=
  fun drain =>
    .ok { id := "w1", busy := drain, createdAt := 0, drained := drain, metadata := [] }

/-- C8 witness: at the `c8oracle` responses the race branch returns
`(drained = false, err = nil)` after the drain and undo mutations. -/
theorem claim8_drain_worker_witness :
    (DrainWorker c8oracle "w1").1 = .ok false ∧
    (DrainWorker c8oracle "w1").2 = [("w1", true), ("w1", false)] :=
  (claim8_drain_worker c8oracle "w1").2.2.1
    { id := "w1", busy := true, createdAt := 0, drained := true, metadata := [] }
    { id := "w1", busy := false, createdAt := 0, drained := false, metadata := [] }
    rfl rfl rfl

/-- Go's `strings.Contains`. -/
def goStringsContains (s sub : String) : Bool := decide (sub.toList <:+: s.toList)

/-- The detach error fragment `Controller.KillInstance` treats as benign. -/
def notPartOfGroupMsg : String := "is not part of Auto Scaling group"

/-- Cloud-side operations issued by `KillInstance`, in order. -/
inductive KillAction where
  | detach (instanceId : String) (shouldDecrementDesiredCapacity : Bool)
  | terminate (instanceId : String)
deriving Repr, DecidableEq

/-- `Controller.KillInstance` (`internal/controller.go` lines 247-274),
embedded over oracles for the two AWS calls: `detach` is the error of
`DetachInstances` (with `ShouldDecrementDesiredCapacity = true`), if any;
`terminate` the error of `TerminateInstances`, if any.  Returns the Go
error result and the trace of issued calls. -/
def KillInstance (detach terminate : Option String) (instanceID : String) :
    Option String × List KillAction :=
  let afterDetach : Option String × List KillAction :=
    match terminate with
    | some e₂ =>
        (some s!"could not terminate detached instance: {e₂}",
         [.detach instanceID true, .terminate instanceID])
    | none => (none, [.detach instanceID true, .terminate instanceID])
  match detach with
  | some e =>
      if goStringsContains e notPartOfGroupMsg then afterDetach
      else
        (some s!"could not detach instance from autoscaling group: {e}",
         [.detach instanceID true])
  | none => afterDetach

/-- C9: `KillInstance` always issues detach-with-decrement first and
terminates only after it; a detach error containing "is not part of Auto
Scaling group" is benign (termination still proceeds and decides the
result); any other detach error is returned without attempting
termination; otherwise the result is an error exactly when termination
fails. -/
theorem claim9_kill_instance (detach terminate : Option String) (instanceID : String) :
    (KillInstance detach terminate instanceID).2.head? =
      some (.detach instanceID true) ∧
    ((KillInstance detach terminate instanceID).2 = [.detach instanceID true] ∨
      (KillInstance detach terminate instanceID).2 =
        [.detach instanceID true, .terminate instanceID]) ∧
    (∀ e, detach = some e → goStringsContains e notPartOfGroupMsg = true →
      (KillInstance detach terminate instanceID).2 =
        [.detach instanceID true, .terminate instanceID] ∧
      ((KillInstance detach terminate instanceID).1 = none ↔ terminate = none)) ∧
    (∀ e, detach = some e → goStringsContains e notPartOfGroupMsg = false →
      (KillInstance detach terminate instanceID).1.isSome ∧
      (KillInstance detach terminate instanceID).2 = [.detach instanceID true]) ∧
    (detach = none →
      ((KillInstance detach terminate instanceID).1 = none ↔ terminate = none)) := by
  unfold KillInstance
  rcases hd : detach with _ | e
  · rcases ht : terminate with _ | e₂ <;> simp [hd, ht]
  · rcases hb : goStringsContains e notPartOfGroupMsg with _ | _
    · simp [hd, hb]
    · rcases ht : terminate with _ | e₂ <;> simp [hd, hb, ht]

/-- A detach error message of the benign kind, for the C9 witness. -/
def c9err : String := "instance i-123 is not part of Auto Scaling group test"

/-- C9 witness: at a concrete benign detach error with successful
termination, the instance is still terminated after the detach attempt
and `KillInstance` succeeds. -/
theorem claim9_kill_instance_witness :
    goStringsContains c9err notPartOfGroupMsg = true ∧
    ((KillInstance (some c9err) none "i-123").2 =
        [.detach "i-123" true, .terminate "i-123"] ∧
      ((KillInstance (some c9err) none "i-123").1 = none ↔ (none : Option String) = none)) :=
  ⟨by decide, (claim9_kill_instance (some c9err) none "i-123").2.2.1 c9err rfl (by decide)⟩

/-- `State.IdleWorkers` (older `State` variant embedded in
`internal/ifaces/azure_compute.go`, lines 90-102): workers that are not
busy. -/
def IdleWorkers (wp : WorkerPool) : List Worker :=
  wp.workers.filter (fun w => !w.busy)

/-- `State.StrayInstances` of the older variant (`azure_compute.go`
lines 106-114): no drained-worker branch. -/
def strayInstancesOld (wp : WorkerPool) (asg : AutoScalingGroup) : List String :=
  (inServiceInstanceIDs asg).filter
    (fun iid => !((workersByInstanceID wp).lookup iid).isSome)

/-- `NewState` validation of the older variant (`azure_compute.go`
lines 38-87): like the newer one but without the empty-group-id check. -/
def newStateChecksOld (wp : WorkerPool) (asg : AutoScalingGroup) : Except String Unit :=
  wp.workers.foldlM
    (fun _ w =>
      let idn := w.instanceIdentity
      if !idn.2 then Except.error s!"worker {w.id} has invalid metadata"
      else if idn.1.1 ≠ asg.name then Except.error s!"incorrect worker ASG: {idn.1.1}"
      else Except.ok ())
    ()

/-- `State.determineScaleUp` of the older variant (`azure_compute.go`
lines 142-172). -/
def determineScaleUpOld (wp : WorkerPool) (asg : AutoScalingGroup)
    (missingWorkers maxCreate : Int) : Decision :=
  if (wp.workers.length : Int) ≥ asg.maxSize then
    { scalingDirection := .none, scalingSize := 0,
      comments := ["autoscaling group is already at maximum size"] }
  else
    let comments : List String :=
      if missingWorkers > maxCreate then
        [s!"need {missingWorkers} workers, but can only create {maxCreate}"]
      else []
    let missing := if missingWorkers > maxCreate then maxCreate else missingWorkers
    if asg.desiredCapacity + missing ≤ asg.maxSize then
      { scalingDirection := .up, scalingSize := missing,
        comments := comments ++ ["adding workers to match pending runs"] }
    else
      { scalingDirection := .up, scalingSize := asg.maxSize - asg.desiredCapacity,
        comments := comments ++ ["adding workers to match pending runs, up to the ASG max size"] }

/-- `State.determineScaleDown` of the older variant (`azure_compute.go`
lines 174-199). -/
def determineScaleDownOld (wp : WorkerPool) (asg : AutoScalingGroup)
    (extraWorkers maxKill : Int) : Decision :=
  if (wp.workers.length : Int) ≤ asg.minSize then
    { scalingDirection := .none, scalingSize := 0,
      comments := ["autoscaling group is already at minimum size"] }
  else
    let comments1 : List String :=
      if extraWorkers > maxKill then
        [s!"need to kill {extraWorkers} workers, but can only kill {maxKill}"]
      else []
    let extra1 := if extraWorkers > maxKill then maxKill else extraWorkers
    let overMinimum := asg.desiredCapacity - asg.minSize
    let comments2 : List String :=
      if extra1 > overMinimum then
        comments1 ++
          [s!"need to kill {extra1} workers, but can't get below minimum size of {asg.minSize}"]
      else comments1
    let extra2 := if extra1 > overMinimum then overMinimum else extra1
    { scalingDirection := .down, scalingSize := extra2,
      comments := comments2 ++ ["removing idle workers"] }

/-- `State.Decision` of the older variant (`azure_compute.go` lines
116-140); this is the method `internal/auto_scaler.go` invokes as
`state.Decide` (built on `IdleWorkers`, no scale-down delay). -/
def DecisionOld (wp : WorkerPool) (asg : AutoScalingGroup) (maxCreate maxKill : Int) : Decision :=
  if wp.workers.length ≠ asg.instances.length then
    { scalingDirection := .none, scalingSize := 0,
      comments := ["number of workers does not match the number of instances in the ASG"] }
  else
    let difference : Int := wp.pendingRuns - (IdleWorkers wp).length
    if difference > 0 then determineScaleUpOld wp asg difference maxCreate
    else if difference < 0 then determineScaleDownOld wp asg (-difference) maxKill
    else
      { scalingDirection := .none, scalingSize := 0,
        comments := ["autoscaling group exactly at the right size"] }

/-- I/O actions a reconciler issues against its controller, in order. -/
inductive CtrlAction where
  | describeInstances (ids : List String)
  | drainWorker (workerId : String)
  | killInstance (instanceId : String)
  | scaleUpASG (desiredCapacity : Int)
deriving Repr, DecidableEq

/-- The controller oracle: results of the I/O calls a reconciler can
make, plus the wall clock.  `instanceIdentity` is the multi-cloud
controller's `InstanceIdentity` (instance-id part, error discarded as in
the Go call sites). -/
structure Env where
  describe : List String → Except String (List InstanceRec)
  drain : String → Except String Bool
  kill : String → Option String
  scaleUp : Int → Option String
  instanceIdentity : Worker → String
  now : Int

/-- Result of the stray-instance loop: either the reconciler returned
(with the given result), or the loop fell through to the scale
decision. -/
inductive StrayOut where
  | returned (r : Except String Unit)
  | fellThrough
deriving Repr

/-- Stray loop of the EC2 reconciler (`internal/auto_scaler.go` lines
63-89): the first described stray older than 10 minutes is killed and the
reconciler returns (successfully, or with the kill error); younger strays
are skipped. -/
def strayLoopAS (env : Env) : List InstanceRec → StrayOut × List CtrlAction
  | [] => (.fellThrough, [])
  | inst :: rest =>
    if env.now - inst.launchTime > 600 then
      match env.kill inst.instanceId with
      | some e =>
          (.returned (.error s!"could not kill instance: {e}"), [.killInstance inst.instanceId])
      | none => (.returned (.ok ()), [.killInstance inst.instanceId])
    else strayLoopAS env rest

/-- Scale-down loop of the EC2 reconciler (`internal/auto_scaler.go`
lines 114-138): drain the candidate; a drain error aborts with an error;
`drained = false` stops the loop successfully; otherwise the candidate's
instance is killed (a kill error aborts) and the loop continues.  The Go
loop indexes `idleWorkers[i]`, which by construction never runs past the
list; the exhausted case is dead code. -/
def scaleDownLoopAS (env : Env) : List Worker → Nat → Except String Unit × List CtrlAction
  | _, 0 => (.ok (), [])
  | [], _ + 1 => (.ok (), [])
  | w :: rest, n + 1 =>
    let iid := w.instanceIdentity.1.2
    match env.drain w.id with
    | .error e => (.error s!"could not drain worker: {e}", [.drainWorker w.id])
    | .ok false => (.ok (), [.drainWorker w.id])
    | .ok true =>
      match env.kill iid with
      | some e =>
          (.error s!"could not kill instance: {e}", [.drainWorker w.id, .killInstance iid])
      | none =>
        let next := scaleDownLoopAS env rest n
        (next.1, .drainWorker w.id :: .killInstance iid :: next.2)

/-- `AutoScaler.Scale`, EC2 generation (`internal/auto_scaler.go` lines
32-141), over an already-fetched snapshot (the two snapshot calls only
produce early, action-free errors).  Returns the Go error result and the
ordered trace of controller calls. -/
def scaleAS (env : Env) (wp : WorkerPool) (asg : AutoScalingGroup) (cfg : RuntimeConfig) :
    Except String Unit × List CtrlAction :=
  match newStateChecksOld wp asg with
  | .error e => (.error s!"could not create state: {e}", [])
  | .ok _ =>
    let strays := strayInstancesOld wp asg
    let strayResult : StrayOut × List CtrlAction :=
      if strays.isEmpty then (.fellThrough, [])
      else
        match env.describe strays with
        | .error e =>
            (.returned (.error s!"could not list EC2 instances: {e}"),
             [.describeInstances strays])
        | .ok instances =>
          let r := strayLoopAS env instances
          (r.1, .describeInstances strays :: r.2)
    match strayResult with
    | (.returned r, tr) => (r, tr)
    | (.fellThrough, tr) =>
      let decision := DecisionOld wp asg cfg.autoscalingMaxCreate cfg.autoscalingMaxKill
      if decision.scalingDirection = .none then (.ok (), tr)
      else if decision.scalingDirection = .up then
        match env.scaleUp (asg.desiredCapacity + decision.scalingSize) with
        | some e =>
            (.error s!"could not scale up ASG: {e}",
             tr ++ [.scaleUpASG (asg.desiredCapacity + decision.scalingSize)])
        | none => (.ok (), tr ++ [.scaleUpASG (asg.desiredCapacity + decision.scalingSize)])
      else
        let r := scaleDownLoopAS env (IdleWorkers wp) decision.scalingSize.toNat
        (r.1, tr ++ r.2)

/-- Capacity sanity check of the multi-cloud reconciler (`part_018`
`Scale`, lines 73-115).  `validWorkerCount` is `state.ValidWorkerCount()`
(a plain count consumed as a number by this block).  Returns the ASG as
the rest of the tick sees it (desired capacity updated only when the
corrective call succeeded) and the issued actions. -/
def sanityPhaseMC (env : Env) (validWorkerCount : Int) (wp : WorkerPool)
    (asg : AutoScalingGroup) (cfg : RuntimeConfig) : AutoScalingGroup × List CtrlAction :=
  let expectedMaxCapacity := validWorkerCount + wp.pendingRuns + cfg.autoscalingMaxCreate
  let sanityThreshold :=
    if cfg.autoscalingCapacitySanityCheck = 0 then 10 else cfg.autoscalingCapacitySanityCheck
  let excessCapacity := asg.desiredCapacity - expectedMaxCapacity
  if excessCapacity ≥ sanityThreshold ∧ asg.desiredCapacity > asg.minSize then
    let sane0 := validWorkerCount + wp.pendingRuns
    let sane1 := if sane0 < asg.minSize then asg.minSize else sane0
    let saneCapacity := if sane1 > asg.maxSize then asg.maxSize else sane1
    match env.scaleUp saneCapacity with
    | some _ => (asg, [.scaleUpASG saneCapacity])
    | none => ({ asg with desiredCapacity := saneCapacity }, [.scaleUpASG saneCapacity])
  else (asg, [])

/-- Stray loop of the multi-cloud reconciler (`part_018` lines 127-151):
every described stray older than 10 minutes is killed (kill errors are
counted and the loop continues); the loop never returns early.  Returns
the error count delta and the issued actions. -/
def strayLoopMC (env : Env) : List InstanceRec → Int × List CtrlAction
  | [] => (0, [])
  | inst :: rest =>
    if env.now - inst.launchTime > 600 then
      let next := strayLoopMC env rest
      match env.kill inst.instanceId with
      | some _ => (next.1 + 1, .killInstance inst.instanceId :: next.2)
      | none => (next.1, .killInstance inst.instanceId :: next.2)
    else strayLoopMC env rest

/-- Scale-down loop of the multi-cloud reconciler (`part_018` lines
194-222): a drain error or kill error increments the error count and the
loop continues; `drained = false` (busy) only skips the candidate — the
loop also continues.  The Go loop indexes `scalableWorkers[i]`; the
exhausted case is dead code. -/
def scaleDownLoopMC (env : Env) : List Worker → Nat → Int × List CtrlAction
  | _, 0 => (0, [])
  | [], _ + 1 => (0, [])
  | w :: rest, n + 1 =>
    let iid := env.instanceIdentity w
    match env.drain w.id with
    | .error _ =>
      let next := scaleDownLoopMC env rest n
      (next.1 + 1, .drainWorker w.id :: next.2)
    | .ok false =>
      let next := scaleDownLoopMC env rest n
      (next.1, .drainWorker w.id :: next.2)
    | .ok true =>
      match env.kill iid with
      | some _ =>
        let next := scaleDownLoopMC env rest n
        (next.1 + 1, .drainWorker w.id :: .killInstance iid :: next.2)
      | none =>
        let next := scaleDownLoopMC env rest n
        (next.1, .drainWorker w.id :: .killInstance iid :: next.2)

/-- Decision-and-scaling tail of the multi-cloud reconciler (`part_018`
lines 154-228), after the sanity check and stray phase: `asg1` is the
(possibly corrected) ASG, `errCount` the accumulated error count,
`scalable` the `state.ScalableWorkers()` list and `decideF` the
`state.Decide` computation as a function of the ASG the state references. -/
def scaleMCRest (env : Env) (asg1 : AutoScalingGroup) (errCount : Int)
    (scalable : List Worker) (decideF : AutoScalingGroup → Decision) :
    Except String Unit × List CtrlAction :=
  let decision := decideF asg1
  if decision.scalingDirection = .none then
    (if errCount > 0 then .error s!"encountered {errCount} errors" else .ok (), [])
  else if decision.scalingDirection = .up then
    let target := asg1.desiredCapacity + decision.scalingSize
    let errCount1 :=
      match env.scaleUp target with
      | some _ => errCount + 1
      | none => errCount
    (if errCount1 > 0 then .error s!"encountered {errCount1} errors during scale-up"
     else .ok (), [.scaleUpASG target])
  else
    let r := scaleDownLoopMC env scalable decision.scalingSize.toNat
    let total := errCount + r.1
    (if total > 0 then .error s!"encountered {total} errors during scale-down" else .ok (),
     r.2)

/-- `AutoScaler.Scale`, multi-cloud generation (`part_018` lines 49-228),
over an already-fetched snapshot.  The multi-cloud `State`
implementation itself is not part of the sources; its four query results
(`ValidWorkerCount`, `StrayInstances`, `ScalableWorkers`, `Decide`) are
inputs of the embedding, with `Decide` a function of the ASG record the
state references (the sanity check mutates `asg.DesiredCapacity` through
that reference before `Decide` runs). -/
def scaleMC (env : Env) (wp : WorkerPool) (asg : AutoScalingGroup) (cfg : RuntimeConfig)
    (validWorkerCount : Int) (strays : List String) (scalable : List Worker)
    (decideF : AutoScalingGroup → Decision) : Except String Unit × List CtrlAction :=
  let sanity := sanityPhaseMC env validWorkerCount wp asg cfg
  if strays.isEmpty then
    let r := scaleMCRest env sanity.1 0 scalable decideF
    (r.1, sanity.2 ++ r.2)
  else
    match env.describe strays with
    | .error e => (.error s!"could not list instances: {e}", sanity.2 ++ [.describeInstances strays])
    | .ok instances =>
      let stray := strayLoopMC env instances
      let r := scaleMCRest env sanity.1 stray.1 scalable decideF
      (r.1, sanity.2 ++ [.describeInstances strays] ++ stray.2 ++ r.2)

/-- Helper: the EC2 scale-down loop stops at the first busy candidate:
if every earlier candidate drained and was killed successfully and the
candidate at position `|pre|` reports `drained = false`, the loop
returns success and its trace ends with that candidate's drain — no
later drain, and no kill for the busy candidate or any later one. -/
theorem scaleDownLoopAS_stops (env : Env) (wk : Worker) :
    ∀ (pre : List Worker) (post : List Worker) (n : Nat), pre.length < n →
    (∀ w ∈ pre, env.drain w.id = .ok true ∧ env.kill w.instanceIdentity.1.2 = none) →
    env.drain wk.id = .ok false →
    scaleDownLoopAS env (pre ++ wk :: post) n =
      (.ok (),
        pre.flatMap (fun w => [.drainWorker w.id, .killInstance w.instanceIdentity.1.2]) ++
          [.drainWorker wk.id]) := by
  intro pre
  induction pre with
  | nil =>
    intro post n hn _ hwk
    match n, hn with
    | n + 1, _ =>
      simp only [List.nil_append, scaleDownLoopAS, hwk, List.flatMap_nil]
  | cons p pre ih =>
    intro post n hn hpre hwk
    match n, hn with
    | n + 1, hn =>
      have hp := hpre p (by simp)
      have hrest : ∀ w ∈ pre, env.drain w.id = .ok true ∧
          env.kill w.instanceIdentity.1.2 = none :=
        fun w hw => hpre w (by simp [hw])
      have hlen : pre.length < n := by simpa using hn
      have hih := ih post n hlen hrest hwk
      simp only [List.cons_append, scaleDownLoopAS, hp.1, hp.2, List.flatMap_cons]
      rw [show pre.append (wk :: post) = pre ++ wk :: post from rfl, hih]
      simp

/-- Helper: in the multi-cloud scale-down loop, an instance is only ever
killed for a candidate whose drain returned `drained = true`; a busy
(`drained = false`) candidate is skipped but the loop continues. -/
theorem scaleDownLoopMC_kill_only_drained (env : Env) :
    ∀ (ws : List Worker) (n : Nat) (iid : String),
    CtrlAction.killInstance iid ∈ (scaleDownLoopMC env ws n).2 →
    ∃ w ∈ ws, env.instanceIdentity w = iid ∧ env.drain w.id = .ok true := by
  intro ws
  induction ws with
  | nil => intro n iid h; cases n <;> simp [scaleDownLoopMC] at h
  | cons w rest ih =>
    intro n iid h
    match n with
    | 0 => simp [scaleDownLoopMC] at h
    | n + 1 =>
      rcases hd : env.drain w.id with e | b
      · simp only [scaleDownLoopMC, hd, List.mem_cons] at h
        rcases h with h | h
        · cases h
        · obtain ⟨w', hw', hi⟩ := ih n iid h
          exact ⟨w', by simp [hw'], hi⟩
      · cases b
        · simp only [scaleDownLoopMC, hd, List.mem_cons] at h
          rcases h with h | h
          · cases h
          · obtain ⟨w', hw', hi⟩ := ih n iid h
            exact ⟨w', by simp [hw'], hi⟩
        · rcases hk : env.kill (env.instanceIdentity w) with _ | e <;>
          · simp only [scaleDownLoopMC, hd, hk, List.mem_cons] at h
            rcases h with h | h | h
            · cases h
            · cases h
              exact ⟨w, by simp, rfl, hd⟩
            · obtain ⟨w', hw', hi⟩ := ih n iid h
              exact ⟨w', by simp [hw'], hi⟩

/-- C2 (amended): in the EC2 reconciler (`internal/auto_scaler.go`) a
busy candidate stops the entire scale-down loop exactly as claimed; in
the multi-cloud reconciler (`part_018`) a busy candidate is only
skipped — its instance is never killed, but later candidates are still
drained. -/
theorem claim2_amended_scale_down_stop :
    (∀ (env : Env) (wk : Worker) (pre post : List Worker) (n : Nat), pre.length < n →
      (∀ w ∈ pre, env.drain w.id = .ok true ∧ env.kill w.instanceIdentity.1.2 = none) →
      env.drain wk.id = .ok false →
      scaleDownLoopAS env (pre ++ wk :: post) n =
        (.ok (),
          pre.flatMap (fun w => [.drainWorker w.id, .killInstance w.instanceIdentity.1.2]) ++
            [.drainWorker wk.id])) ∧
    (∀ (env : Env) (ws : List Worker) (n : Nat) (iid : String),
      CtrlAction.killInstance iid ∈ (scaleDownLoopMC env ws n).2 →
      ∃ w ∈ ws, env.instanceIdentity w = iid ∧ env.drain w.id = .ok true) :=
  ⟨fun env wk pre post n => scaleDownLoopAS_stops env wk pre post n,
   fun env => scaleDownLoopMC_kill_only_drained env⟩

/-- Oracle for the C2 witness and counterexample: worker `w1` reports
busy on drain (`drained = false`), every other worker drains fine, all
kills succeed. -/
def c2env : Env :=
  { describe := fun _ => .ok [],
    drain := fun id => .ok (id != "w1"),
    kill := fun _ => none,
    scaleUp := fun _ => none,
    instanceIdentity := fun w => "inst-" ++ w.id,
    now := 0 }

/-- Worker `w1` of the C2 scenario. -/
def c2w1 : Worker :=
  { id := "w1", busy := false, createdAt := 1, drained := false,
    metadata := [("asg_id", "g"), ("instance_id", "i1")] }

/-- Worker `w2` of the C2 scenario. -/
def c2w2 : Worker :=
  { id := "w2", busy := false, createdAt := 2, drained := false,
    metadata := [("asg_id", "g"), ("instance_id", "i2")] }

/-- C2 counterexample: in the multi-cloud reconciler's scale-down loop
(`part_018`, the first code location the claim cites), when the first
candidate `w1` comes back busy (`drained = false`), the later candidate
`w2` IS still drained and its instance IS killed — the loop does not
stop. -/
theorem claim2_counterexample :
    (scaleDownLoopMC c2env [c2w1, c2w2] 2).2 =
      [.drainWorker "w1", .drainWorker "w2", .killInstance "inst-w2"] ∧
    CtrlAction.drainWorker "w2" ∈ (scaleDownLoopMC c2env [c2w1, c2w2] 2).2 ∧
    CtrlAction.killInstance "inst-w2" ∈ (scaleDownLoopMC c2env [c2w1, c2w2] 2).2 := by
  refine ⟨rfl, ?_, ?_⟩ <;> simp [scaleDownLoopMC, c2env, c2w1, c2w2]

/-- C2 witness: the EC2 half of the amended claim at the concrete
Scenario-D-like input: candidate `w2` drained and killed, then` w1`...
rather: `w1` busy as very first candidate stops the loop at once. -/
theorem claim2_amended_scale_down_stop_witness :
    (0 : Nat) < 2 ∧
    c2env.drain c2w1.id = .ok false ∧
    scaleDownLoopAS c2env ([] ++ c2w1 :: [c2w2]) 2 = (.ok (), [.drainWorker "w1"]) :=
  ⟨by decide, rfl,
    by
      have h := claim2_amended_scale_down_stop.1 c2env c2w1 [] [c2w2] 2 (by decide)
        (by intro w hw; cases hw) rfl
      simpa using h⟩

/-- Whether a controller action is an instance termination. -/
def CtrlAction.isKill : CtrlAction → Bool
  | .killInstance _ => true
  | _ => false

/-- Helper: the EC2 stray loop terminates at most one instance. -/
theorem strayLoopAS_kill_count (env : Env) :
    ∀ insts : List InstanceRec, ((strayLoopAS env insts).2.countP CtrlAction.isKill) ≤ 1 := by
  intro insts
  induction insts with
  | nil => simp [strayLoopAS]
  | cons inst rest ih =>
    by_cases h : env.now - inst.launchTime > 600
    · rcases hk : env.kill inst.instanceId with _ | e <;>
        simp [strayLoopAS, h, hk, List.countP_cons, CtrlAction.isKill]
    · simpa [strayLoopAS, h] using ih

/-- Helper: the EC2 stray loop only kills described instances whose age
exceeds 10 minutes. -/
theorem strayLoopAS_kill_mature (env : Env) :
    ∀ (insts : List InstanceRec) (iid : String),
    CtrlAction.killInstance iid ∈ (strayLoopAS env insts).2 →
    ∃ inst ∈ insts, inst.instanceId = iid ∧ env.now - inst.launchTime > 600 := by
  intro insts
  induction insts with
  | nil => intro iid h; simp [strayLoopAS] at h
  | cons inst rest ih =>
    intro iid h
    by_cases hage : env.now - inst.launchTime > 600
    · rcases hk : env.kill inst.instanceId with _ | e <;>
      · simp only [strayLoopAS, hage, if_true, hk, List.mem_cons, List.mem_singleton] at h
        rcases h with h | h
        · cases h
          exact ⟨inst, by simp, rfl, hage⟩
        · cases h
    · simp only [strayLoopAS, hage, if_false] at h
      obtain ⟨inst', hmem, hrest⟩ := ih iid h
      exact ⟨inst', by simp [hmem], hrest⟩

/-- Helper: when the stray loop returns (it terminated a mature stray, or
its kill failed), the whole EC2 reconciler returns that result right
away: its trace is exactly the describe call plus the stray-loop trace —
no decision is evaluated, no scale-up, no drain. -/
theorem scaleAS_stray_return (env : Env) (wp : WorkerPool) (asg : AutoScalingGroup)
    (cfg : RuntimeConfig) (insts : List InstanceRec) (r : Except String Unit)
    (tr : List CtrlAction)
    (h₁ : newStateChecksOld wp asg = .ok ())
    (h₂ : strayInstancesOld wp asg ≠ [])
    (h₃ : env.describe (strayInstancesOld wp asg) = .ok insts)
    (h₄ : strayLoopAS env insts = (.returned r, tr)) :
    scaleAS env wp asg cfg = (r, .describeInstances (strayInstancesOld wp asg) :: tr) := by
  have h₂' : (strayInstancesOld wp asg).isEmpty = false := by
    cases hs : strayInstancesOld wp asg with
    | nil => exact absurd hs h₂
    | cons a l => simp
  unfold scaleAS
  rw [h₁]
  simp only [h₂', Bool.false_eq_true, if_false, h₃, h₄]

/-- C3 (amended): in the EC2 reconciler (`internal/auto_scaler.go`) the
stray path terminates at most one instance per invocation, only if its
age exceeds 10 minutes, and after a stray termination the reconciler
returns without evaluating the scale decision.  (The multi-cloud
reconciler of `part_018` violates all three parts — see the
counterexample.) -/
theorem claim3_amended_stray_policy :
    (∀ (env : Env) (insts : List InstanceRec),
      ((strayLoopAS env insts).2.countP CtrlAction.isKill) ≤ 1) ∧
    (∀ (env : Env) (insts : List InstanceRec) (iid : String),
      CtrlAction.killInstance iid ∈ (strayLoopAS env insts).2 →
      ∃ inst ∈ insts, inst.instanceId = iid ∧ env.now - inst.launchTime > 600) ∧
    (∀ (env : Env) (wp : WorkerPool) (asg : AutoScalingGroup) (cfg : RuntimeConfig)
        (insts : List InstanceRec) (r : Except String Unit) (tr : List CtrlAction),
      newStateChecksOld wp asg = .ok () →
      strayInstancesOld wp asg ≠ [] →
      env.describe (strayInstancesOld wp asg) = .ok insts →
      strayLoopAS env insts = (.returned r, tr) →
      scaleAS env wp asg cfg = (r, .describeInstances (strayInstancesOld wp asg) :: tr)) :=
  ⟨fun env => strayLoopAS_kill_count env,
   fun env => strayLoopAS_kill_mature env,
   fun env wp asg cfg insts r tr => scaleAS_stray_return env wp asg cfg insts r tr⟩

/-- Environment for the C3 scenario: one/two mature strays, all kills
succeed, wall clock at 1000 (instances launched at time 100, age 900 s >
10 min). -/
def c3env : Env :=
  { describe := fun _ =>
      .ok [{ instanceId := "i1", launchTime := 100, lifecycleState := "InService" },
           { instanceId := "i2", launchTime := 100, lifecycleState := "InService" }],
    drain := fun _ => .ok true,
    kill := fun _ => none,
    scaleUp := fun _ => none,
    instanceIdentity := fun w => w.metadataValueD "instance_id",
    now := 1000 }

/-- C3 counterexample: the multi-cloud reconciler (`part_018`, the second
code location the claim cites) with two mature strays terminates BOTH of
them in one invocation and then still evaluates the scale decision (the
scale-up call follows the kills in the trace). -/
theorem claim3_counterexample :
    (scaleMC c3env { pendingRuns := 0, workers := [] }
        { name := "g", minSize := 0, maxSize := 5, desiredCapacity := 2, instances := [] }
        { autoscalingScaleDownDelay := 0, autoscalingMaxKill := 1,
          autoscalingMaxCreate := 1, autoscalingCapacitySanityCheck := 10 }
        0 ["i1", "i2"] []
        (fun _ => { scalingDirection := .up, scalingSize := 1, comments := [] })).2 =
      [.describeInstances ["i1", "i2"], .killInstance "i1", .killInstance "i2",
        .scaleUpASG 3] ∧
    ((scaleMC c3env { pendingRuns := 0, workers := [] }
        { name := "g", minSize := 0, maxSize := 5, desiredCapacity := 2, instances := [] }
        { autoscalingScaleDownDelay := 0, autoscalingMaxKill := 1,
          autoscalingMaxCreate := 1, autoscalingCapacitySanityCheck := 10 }
        0 ["i1", "i2"] []
        (fun _ => { scalingDirection := .up, scalingSize := 1, comments := [] })).2.countP
      CtrlAction.isKill) = 2 := by
  constructor <;> rfl

/-- The worker pool for the C3 witness (Scenario E): no workers at all. -/
def c3wp : WorkerPool := { pendingRuns := 0, workers := [] }

/-- The ASG for the C3 witness: a single in-service instance `i1`. -/
def c3asg : AutoScalingGroup :=
  { name := "g", minSize := 0, maxSize := 5, desiredCapacity := 1,
    instances := [{ instanceId := "i1", launchTime := 100, lifecycleState := "InService" }] }

/-- Environment for the C3 witness: describing `["i1"]` returns the
mature instance `i1` only. -/
def c3envA : Env :=
  { describe := fun _ =>
      .ok [{ instanceId := "i1", launchTime := 100, lifecycleState := "InService" }],
    drain := fun _ => .ok true,
    kill := fun _ => none,
    scaleUp := fun _ => none,
    instanceIdentity := fun w => w.metadataValueD "instance_id",
    now := 1000 }

/-- C3 witness: Scenario E on the EC2 reconciler — the mature stray `i1`
is killed and `Scale` returns with exactly the describe and kill calls. -/
theorem claim3_amended_stray_policy_witness :
    scaleAS c3envA c3wp c3asg
        { autoscalingScaleDownDelay := 0, autoscalingMaxKill := 1,
          autoscalingMaxCreate := 1, autoscalingCapacitySanityCheck := 10 } =
      (.ok (), [.describeInstances ["i1"], .killInstance "i1"]) := by
  have h := claim3_amended_stray_policy.2.2 c3envA c3wp c3asg
    { autoscalingScaleDownDelay := 0, autoscalingMaxKill := 1,
      autoscalingMaxCreate := 1, autoscalingCapacitySanityCheck := 10 }
    [{ instanceId := "i1", launchTime := 100, lifecycleState := "InService" }]
    (.ok ()) [.killInstance "i1"] rfl (by decide) rfl rfl
  simpa using h

/-- The claim's trigger condition for the capacity sanity check, written
as the spec words it: the desired capacity exceeds
`validWorkers + PendingRuns + maxCreate` by at least the threshold
(10 when unset) and is above the minimum size. -/
abbrev sanityCheckCondition (vwc : Int) (wp : WorkerPool) (asg : AutoScalingGroup)
    (cfg : RuntimeConfig) : Prop :=
  asg.desiredCapacity - (vwc + wp.pendingRuns + cfg.autoscalingMaxCreate) ≥
      (if cfg.autoscalingCapacitySanityCheck = 0 then 10
       else cfg.autoscalingCapacitySanityCheck) ∧
    asg.desiredCapacity > asg.minSize

/-- The claim's corrective value, written as the spec words it:
`validWorkers + PendingRuns` clamped to `[MinSize, MaxSize]`. -/
abbrev sanityCorrectiveCapacity (vwc : Int) (wp : WorkerPool) (asg : AutoScalingGroup) : Int :=
  min (max (vwc + wp.pendingRuns) asg.minSize) asg.maxSize

/-- C5: the sanity check issues the corrective `ScaleUpASG` call exactly
when the trigger condition holds, with the clamped corrective value; on
success the in-memory desired capacity becomes that value; on failure
the ASG is left as it was and the tick continues with normal scaling on
the uncorrected data instead of aborting. -/
theorem claim5_capacity_sanity_check (env : Env) (vwc : Int) (wp : WorkerPool)
    (asg : AutoScalingGroup) (cfg : RuntimeConfig) :
    ((sanityPhaseMC env vwc wp asg cfg).2 =
      if sanityCheckCondition vwc wp asg cfg then
        [CtrlAction.scaleUpASG (sanityCorrectiveCapacity vwc wp asg)]
      else []) ∧
    (sanityCheckCondition vwc wp asg cfg →
      env.scaleUp (sanityCorrectiveCapacity vwc wp asg) = none →
      (sanityPhaseMC env vwc wp asg cfg).1 =
        { asg with desiredCapacity := sanityCorrectiveCapacity vwc wp asg }) ∧
    (∀ e, sanityCheckCondition vwc wp asg cfg →
      env.scaleUp (sanityCorrectiveCapacity vwc wp asg) = some e →
      (sanityPhaseMC env vwc wp asg cfg).1 = asg) ∧
    (∀ e (scalable : List Worker) (decideF : AutoScalingGroup → Decision),
      sanityCheckCondition vwc wp asg cfg →
      env.scaleUp (sanityCorrectiveCapacity vwc wp asg) = some e →
      scaleMC env wp asg cfg vwc [] scalable decideF =
        ((scaleMCRest env asg 0 scalable decideF).1,
          CtrlAction.scaleUpASG (sanityCorrectiveCapacity vwc wp asg) ::
            (scaleMCRest env asg 0 scalable decideF).2)) := by
  have hsane :
      (if (if vwc + wp.pendingRuns < asg.minSize then asg.minSize
           else vwc + wp.pendingRuns) > asg.maxSize then asg.maxSize
       else if vwc + wp.pendingRuns < asg.minSize then asg.minSize
            else vwc + wp.pendingRuns) = sanityCorrectiveCapacity vwc wp asg := by
    simp only [sanityCorrectiveCapacity, Int.max_def, Int.min_def]
    split_ifs <;> omega
  refine ⟨?_, ?_, ?_, ?_⟩
  · unfold sanityPhaseMC
    by_cases hc : sanityCheckCondition vwc wp asg cfg
    · rw [if_pos hc]
      dsimp only
      rw [hsane]
      rcases hs : env.scaleUp (sanityCorrectiveCapacity vwc wp asg) with _ | e <;>
        simp only [hs] <;> simp only [if_pos hc]
    · simp only [if_neg hc]
  · intro hcond hok
    unfold sanityPhaseMC
    rw [if_pos hcond]
    dsimp only
    rw [hsane, hok]
  · intro e hcond herr
    unfold sanityPhaseMC
    rw [if_pos hcond]
    dsimp only
    rw [hsane, herr]
  · intro e scalable decideF hcond herr
    unfold scaleMC
    have h₃ : (sanityPhaseMC env vwc wp asg cfg).1 = asg := by
      unfold sanityPhaseMC
      rw [if_pos hcond]
      dsimp only
      rw [hsane, herr]
    have h₄ : (sanityPhaseMC env vwc wp asg cfg).2 =
        [CtrlAction.scaleUpASG (sanityCorrectiveCapacity vwc wp asg)] := by
      unfold sanityPhaseMC
      rw [if_pos hcond]
      dsimp only
      rw [hsane, herr]
    simp [h₃, h₄]

/-- Environment for the C5 witness: the corrective call succeeds. -/
def c5env : Env :=
  { describe := fun _ => .ok [], drain := fun _ => .ok true, kill := fun _ => none,
    scaleUp := fun _ => none, instanceIdentity := fun w => w.metadataValueD "instance_id",
    now := 0 }

/-- Worker pool of Scenario F: 5 pending runs (worker records not needed
by the sanity check, which consumes only the counts). -/
def c5wp : WorkerPool := { pendingRuns := 5, workers := [] }

/-- ASG of Scenario F: desired capacity drifted to 79. -/
def c5asg : AutoScalingGroup :=
  { name := "g", minSize := 3, maxSize := 100, desiredCapacity := 79, instances := [] }

/-- Configuration of Scenario F. -/
def c5cfg : RuntimeConfig :=
  { autoscalingScaleDownDelay := 0, autoscalingMaxKill := 1,
    autoscalingMaxCreate := 20, autoscalingCapacitySanityCheck := 10 }

/-- C5 witness: Scenario F — with 3 valid workers, 5 pending runs,
`Desired = 79`, the check triggers (79 − 28 ≥ 10), the corrective value
is `clamp(8, 3, 100) = 8`, and on success the in-memory desired capacity
becomes 8. -/
theorem claim5_capacity_sanity_check_witness :
    sanityCheckCondition 3 c5wp c5asg c5cfg ∧
    c5env.scaleUp (sanityCorrectiveCapacity 3 c5wp c5asg) = none ∧
    (sanityPhaseMC c5env 3 c5wp c5asg c5cfg).1 =
      { c5asg with desiredCapacity := sanityCorrectiveCapacity 3 c5wp c5asg } :=
  ⟨by decide, rfl,
    (claim5_capacity_sanity_check c5env 3 c5wp c5asg c5cfg).2.1 (by decide) rfl⟩

/-- The Go zero value of `Worker`, the value an out-of-range slice read
would need; all verified executions stay in bounds. -/
instance : Inhabited Worker :=
  ⟨{ id := "", busy := false, createdAt := 0, drained := false, metadata := [] }⟩

/-! ### Go 1.20 `sort.Slice`

`GetWorkerPool` sorts with `sort.Slice`, which since Go 1.19 is the
pattern-defeating quicksort of `sort/zsortfunc.go` with
`limit = bits.Len(uint(n))`.  The functions below transcribe that
algorithm over a `List` playing the role of the slice: `goGet`/`goSwap`
are indexed reads/swaps (Go panics out of range; verified executions
stay in bounds, and `goSwap` leaves the list unchanged there), and each
Go loop becomes a recursive function on the loop variable. -/

/-- Indexed slice read. -/
def goGet {α : Type} [Inhabited α] (l : List α) (i : Nat) : α := l.getD i default

/-- `data.Swap(i, j)`. -/
def goSwap {α : Type} [Inhabited α] (l : List α) (i j : Nat) : List α :=
  if i < l.length ∧ j < l.length then (l.set i (goGet l j)).set j (goGet l i) else l

/-- `data.Less(i, j)`. -/
def goLess {α : Type} [Inhabited α] (less : α → α → Bool) (l : List α) (i j : Nat) : Bool :=
  less (goGet l i) (goGet l j)

/-- Inner loop of `insertionSort_func`:
`for j := i; j > a && data.Less(j, j-1); j-- { data.Swap(j, j-1) }`
(recursion on `j`, which the loop decrements). -/
def goInsSortInner {α : Type} [Inhabited α] (less : α → α → Bool) :
    List α → Nat → Nat → List α
  | l, _, 0 => l
  | l, a, j + 1 =>
    if a < j + 1 ∧ goLess less l (j + 1) j = true then
      goInsSortInner less (goSwap l (j + 1) j) a j
    else l

/-- Outer loop of `insertionSort_func`: `for i := a + 1; i < b; i++`
(the fuel dominates the remaining iteration count `b - i`). -/
def goInsSortOuter {α : Type} [Inhabited α] (less : α → α → Bool) :
    Nat → List α → Nat → Nat → Nat → List α
  | 0, l, _, _, _ => l
  | fuel + 1, l, a, b, i =>
    if i < b then goInsSortOuter less fuel (goInsSortInner less l a i) a b (i + 1) else l

/-- `insertionSort_func(data, a, b)`. -/
def goInsertionSort {α : Type} [Inhabited α] (less : α → α → Bool) (l : List α) (a b : Nat) :
    List α :=
  goInsSortOuter less b l a b (a + 1)

/-- `siftDown_func` loop body (root walks down the heap; the fuel
dominates the iteration count, as `root` grows by at least one per
step and the loop stops at `hi`). -/
def goSiftDownF {α : Type} [Inhabited α] (less : α → α → Bool) :
    Nat → List α → Nat → Nat → Nat → List α
  | 0, l, _, _, _ => l
  | fuel + 1, l, root, hi, first =>
    let child := 2 * root + 1
    if child < hi then
      let child1 :=
        if child + 1 < hi ∧ goLess less l (first + child) (first + child + 1) = true then
          child + 1
        else child
      if goLess less l (first + root) (first + child1) = false then l
      else goSiftDownF less fuel (goSwap l (first + root) (first + child1)) child1 hi first
    else l

/-- `siftDown_func(data, lo, hi, first)`. -/
def goSiftDown {α : Type} [Inhabited α] (less : α → α → Bool) (l : List α)
    (root hi first : Nat) : List α :=
  goSiftDownF less hi l root hi first

/-- Heap construction of `heapSort_func`:
`for i := (hi-1)/2; i >= 0; i--`. -/
def goHeapBuild {α : Type} [Inhabited α] (less : α → α → Bool) (l : List α)
    (i hi first : Nat) : List α :=
  match i with
  | 0 => goSiftDown less l 0 hi first
  | i + 1 => goHeapBuild less (goSiftDown less l (i + 1) hi first) i hi first

/-- Pop phase of `heapSort_func`: `for i := hi - 1; i >= 0; i--`. -/
def goHeapPop {α : Type} [Inhabited α] (less : α → α → Bool) (l : List α)
    (i first : Nat) : List α :=
  match i with
  | 0 => goSiftDown less (goSwap l first (first + 0)) 0 0 first
  | i + 1 =>
    goHeapPop less (goSiftDown less (goSwap l first (first + i + 1)) 0 (i + 1) first) i first

/-- `heapSort_func(data, a, b)` (only reached with `b - a > 12`, so the
`hi = 0` guard is dead code). -/
def goHeapSort {α : Type} [Inhabited α] (less : α → α → Bool) (l : List α) (a b : Nat) :
    List α :=
  let hi := b - a
  let built := goHeapBuild less l ((hi - 1) / 2) hi a
  if hi = 0 then built else goHeapPop less built (hi - 1) a

/-- Loop of `reverseRange_func` (the fuel dominates the iteration
count). -/
def goReverseRangeF {α : Type} [Inhabited α] :
    Nat → List α → Nat → Nat → List α
  | 0, l, _, _ => l
  | fuel + 1, l, i, j =>
    if i < j then goReverseRangeF fuel (goSwap l i j) (i + 1) (j - 1) else l

/-- `reverseRange_func(data, a, b)` (called as `i := a; j := b - 1`). -/
def goReverseRange {α : Type} [Inhabited α] (l : List α) (i j : Nat) : List α :=
  goReverseRangeF j l i j

/-- One step of the `xorshift` generator of `sort/zsortfunc.go`
(64-bit state; shift constants 13 / 7 / 17). -/
def xorshiftNext (r : Nat) : Nat :=
  let r1 := (Nat.xor r ((r <<< 13) % 2 ^ 64)) % 2 ^ 64
  let r2 := Nat.xor r1 (r1 >>> 7)
  (Nat.xor r2 ((r2 <<< 17) % 2 ^ 64)) % 2 ^ 64

/-- `bits.Len(uint(n))` loop body (fuel `n` dominates the bit count). -/
def goBitsLenF : Nat → Nat → Nat
  | 0, _ => 0
  | fuel + 1, n => if n = 0 then 0 else goBitsLenF fuel (n / 2) + 1

/-- `bits.Len(uint(n))`: the number of bits of `n`. -/
def goBitsLen (n : Nat) : Nat := goBitsLenF n n

/-- `nextPowerOfTwo(length) = 1 << bits.Len(uint(length))`. -/
def nextPowerOfTwo (length : Nat) : Nat := 1 <<< goBitsLen length

/-- `breakPatterns_func(data, a, b)`: three pseudo-random swaps around
the middle (only invoked after an unbalanced partition). -/
def goBreakPatterns {α : Type} [Inhabited α] (l : List α) (a b : Nat) : List α :=
  let length := b - a
  if length ≥ 8 then
    let modulus := nextPowerOfTwo length
    let r1 := xorshiftNext length
    let r2 := xorshiftNext r1
    let r3 := xorshiftNext r2
    let idx := a + length / 4 * 2 - 1
    let pick := fun (r : Nat) =>
      let other := Nat.land r (modulus - 1)
      if other ≥ length then other - length else other
    let l1 := goSwap l (idx - 1) (a + pick r1)
    let l2 := goSwap l1 idx (a + pick r2)
    goSwap l2 (idx + 1) (a + pick r3)
  else l

/-- `order2_func`: orders two indices, counting a swap. -/
def goOrder2 {α : Type} [Inhabited α] (less : α → α → Bool) (l : List α)
    (a b swaps : Nat) : Nat × Nat × Nat :=
  if goLess less l b a then (b, a, swaps + 1) else (a, b, swaps)

/-- `median_func`: index of the median of three, threading the swap
counter. -/
def goMedian {α : Type} [Inhabited α] (less : α → α → Bool) (l : List α)
    (a b c swaps : Nat) : Nat × Nat :=
  let o1 := goOrder2 less l a b swaps
  let o2 := goOrder2 less l o1.2.1 c o1.2.2
  let o3 := goOrder2 less l o1.1 o2.1 o2.2.2
  (o3.2.1, o3.2.2)

/-- `medianAdjacent_func`. -/
def goMedianAdjacent {α : Type} [Inhabited α] (less : α → α → Bool) (l : List α)
    (a swaps : Nat) : Nat × Nat :=
  goMedian less l (a - 1) a (a + 1) swaps

/-- `sortedHint`. -/
inductive SortedHint where
  | increasing
  | decreasing
  | unknown
deriving Repr, DecidableEq

/-- `choosePivot_func(data, a, b)`: median (of medians) of fixed sample
positions; the swap count of the little sorting networks doubles as a
sortedness hint (`0` → increasing, `12` → decreasing). -/
def goChoosePivot {α : Type} [Inhabited α] (less : α → α → Bool) (l : List α) (a b : Nat) :
    Nat × SortedHint :=
  let length := b - a
  let i := a + length / 4 * 1
  let j := a + length / 4 * 2
  let k := a + length / 4 * 3
  let picked : Nat × Nat :=
    if length ≥ 8 then
      if length ≥ 50 then
        let m1 := goMedianAdjacent less l i 0
        let m2 := goMedianAdjacent less l j m1.2
        let m3 := goMedianAdjacent less l k m2.2
        goMedian less l m1.1 m2.1 m3.1 m3.2
      else goMedian less l i j k 0
    else (j, 0)
  if picked.2 = 0 then (picked.1, .increasing)
  else if picked.2 = 12 then (picked.1, .decreasing)
  else (picked.1, .unknown)

/-- `partition_func` skip loop body:
`for i <= j && data.Less(i, a) { i++ }` (fuel `j + 1 - i`; when it runs
out, `i > j` already holds and the loop condition is false anyway). -/
def goSkipIF {α : Type} [Inhabited α] (less : α → α → Bool) :
    Nat → List α → Nat → Nat → Nat → Nat
  | 0, _, _, _, i => i
  | fuel + 1, l, aIdx, j, i =>
    if i ≤ j ∧ goLess less l i aIdx = true then goSkipIF less fuel l aIdx j (i + 1) else i

/-- `partition_func` skip: `for i <= j && data.Less(i, a) { i++ }`. -/
def goSkipI {α : Type} [Inhabited α] (less : α → α → Bool) (l : List α)
    (aIdx j i : Nat) : Nat :=
  goSkipIF less (j + 1 - i) l aIdx j i

/-- `partition_func` skip: `for i <= j && !data.Less(j, a) { j-- }`
(`i ≥ 1` in every call, so the `j = 0` underflow is dead code). -/
def goSkipJ {α : Type} [Inhabited α] (less : α → α → Bool) (l : List α)
    (aIdx i : Nat) : Nat → Nat
  | 0 => 0
  | j + 1 =>
    if i ≤ j + 1 ∧ goLess less l (j + 1) aIdx = false then goSkipJ less l aIdx i j
    else j + 1

/-- Main loop of `partition_func`; the fuel dominates the iteration
count (each pass advances `i` past `j` by at least two). -/
def goPartitionLoop {α : Type} [Inhabited α] (less : α → α → Bool)
    (fuel : Nat) (l : List α) (aIdx i j : Nat) : List α × Nat × Nat :=
  match fuel with
  | 0 => (l, i, j)
  | fuel + 1 =>
    let i1 := goSkipI less l aIdx j i
    let j1 := goSkipJ less l aIdx i1 j
    if i1 > j1 then (l, i1, j1)
    else goPartitionLoop less fuel (goSwap l i1 j1) aIdx (i1 + 1) (j1 - 1)

/-- `partition_func(data, a, b, pivot) → (newpivot, alreadyPartitioned)`,
returning the permuted slice as well. -/
def goPartition {α : Type} [Inhabited α] (less : α → α → Bool) (l₀ : List α)
    (a b pivot : Nat) : List α × Nat × Bool :=
  let l := goSwap l₀ a pivot
  let i1 := goSkipI less l a (b - 1) (a + 1)
  let j1 := goSkipJ less l a i1 (b - 1)
  if i1 > j1 then (goSwap l j1 a, j1, true)
  else
    let l2 := goSwap l i1 j1
    let r := goPartitionLoop less b l2 a (i1 + 1) (j1 - 1)
    (goSwap r.1 r.2.2 a, r.2.2, false)

/-- `partitionEqual_func` skip loop body (fuel as in `goSkipIF`). -/
def goSkipIEqF {α : Type} [Inhabited α] (less : α → α → Bool) :
    Nat → List α → Nat → Nat → Nat → Nat
  | 0, _, _, _, i => i
  | fuel + 1, l, aIdx, j, i =>
    if i ≤ j ∧ goLess less l aIdx i = false then goSkipIEqF less fuel l aIdx j (i + 1) else i

/-- `partitionEqual_func` skip: `for i <= j && !data.Less(a, i) { i++ }`. -/
def goSkipIEq {α : Type} [Inhabited α] (less : α → α → Bool) (l : List α)
    (aIdx j i : Nat) : Nat :=
  goSkipIEqF less (j + 1 - i) l aIdx j i

/-- `partitionEqual_func` skip: `for i <= j && data.Less(a, j) { j-- }`. -/
def goSkipJEq {α : Type} [Inhabited α] (less : α → α → Bool) (l : List α)
    (aIdx i : Nat) : Nat → Nat
  | 0 => 0
  | j + 1 =>
    if i ≤ j + 1 ∧ goLess less l aIdx (j + 1) = true then goSkipJEq less l aIdx i j
    else j + 1

/-- Main loop of `partitionEqual_func`. -/
def goPartitionEqualLoop {α : Type} [Inhabited α] (less : α → α → Bool)
    (fuel : Nat) (l : List α) (aIdx i j : Nat) : List α × Nat :=
  match fuel with
  | 0 => (l, i)
  | fuel + 1 =>
    let i1 := goSkipIEq less l aIdx j i
    let j1 := goSkipJEq less l aIdx i1 j
    if i1 > j1 then (l, i1)
    else goPartitionEqualLoop less fuel (goSwap l i1 j1) aIdx (i1 + 1) (j1 - 1)

/-- `partitionEqual_func(data, a, b, pivot) → newpivot` (plus slice). -/
def goPartitionEqual {α : Type} [Inhabited α] (less : α → α → Bool) (l₀ : List α)
    (a b pivot : Nat) : List α × Nat :=
  let l := goSwap l₀ a pivot
  goPartitionEqualLoop less b l a (a + 1) (b - 1)

/-- `partialInsertionSort_func` scan loop body (fuel `b - i`; when it
runs out, `i ≥ b` holds and the loop condition is false anyway). -/
def goPISScanF {α : Type} [Inhabited α] (less : α → α → Bool) :
    Nat → List α → Nat → Nat → Nat
  | 0, _, _, i => i
  | fuel + 1, l, b, i =>
    if i < b ∧ goLess less l i (i - 1) = false then goPISScanF less fuel l b (i + 1) else i

/-- `partialInsertionSort_func` scan:
`for i < b && !data.Less(i, i-1) { i++ }`. -/
def goPISScan {α : Type} [Inhabited α] (less : α → α → Bool) (l : List α) (b i : Nat) : Nat :=
  goPISScanF less (b - i) l b i

/-- `partialInsertionSort_func` left shift:
`for j := i - 1; j >= 1; j--`. -/
def goPISLeft {α : Type} [Inhabited α] (less : α → α → Bool) (l : List α) : Nat → List α
  | 0 => l
  | j + 1 =>
    if goLess less l (j + 1) j = false then l
    else goPISLeft less (goSwap l (j + 1) j) j

/-- `partialInsertionSort_func` right shift loop body (fuel `b - j`). -/
def goPISRightF {α : Type} [Inhabited α] (less : α → α → Bool) :
    Nat → List α → Nat → Nat → List α
  | 0, l, _, _ => l
  | fuel + 1, l, b, j =>
    if j < b then
      if goLess less l j (j - 1) = false then l
      else goPISRightF less fuel (goSwap l j (j - 1)) b (j + 1)
    else l

/-- `partialInsertionSort_func` right shift:
`for j := i + 1; j < b; j++`. -/
def goPISRight {α : Type} [Inhabited α] (less : α → α → Bool) (l : List α) (b j : Nat) :
    List α :=
  goPISRightF less (b - j) l b j

/-- Step loop of `partialInsertionSort_func` (`maxSteps = 5`,
`shortestShifting = 50`). -/
def goPISOuter {α : Type} [Inhabited α] (less : α → α → Bool) (l : List α) (a b i : Nat) :
    Nat → List α × Bool
  | 0 => (l, false)
  | steps + 1 =>
    let i1 := goPISScan less l b i
    if i1 = b then (l, true)
    else if b - a < 50 then (l, false)
    else
      let l1 := goSwap l i1 (i1 - 1)
      let l2 := if i1 - a ≥ 2 then goPISLeft less l1 (i1 - 1) else l1
      let l3 := if b - i1 ≥ 2 then goPISRight less l2 b (i1 + 1) else l2
      goPISOuter less l3 a b i1 steps

/-- `partialInsertionSort_func(data, a, b)`. -/
def goPartialInsertionSort {α : Type} [Inhabited α] (less : α → α → Bool) (l : List α)
    (a b : Nat) : List α × Bool :=
  goPISOuter less l a b (a + 1) 5

/-- `pdqsort_func(data, a, b, limit)`.  The Go loop with its two local
flags becomes fuel-indexed recursion: loop continuation and the
recursive call on the smaller side both recurse (a fresh invocation
restarts both flags at `true`); the fuel dominates the total depth. -/
def goPdqsort {α : Type} [Inhabited α] (less : α → α → Bool) :
    Nat → List α → Nat → Nat → Nat → Bool → Bool → List α
  | 0, l, _, _, _, _, _ => l
  | fuel + 1, l, a, b, limit, wasBalanced, wasPartitioned =>
    let length := b - a
    if length ≤ 12 then goInsertionSort less l a b
    else if limit = 0 then goHeapSort less l a b
    else
      let l1 := if wasBalanced = false then goBreakPatterns l a b else l
      let limit1 := if wasBalanced = false then limit - 1 else limit
      let cp := goChoosePivot less l1 a b
      let l2 := if cp.2 = .decreasing then goReverseRange l1 a (b - 1) else l1
      let pivot := if cp.2 = .decreasing then (b - 1) - (cp.1 - a) else cp.1
      let hint : SortedHint := if cp.2 = .decreasing then .increasing else cp.2
      let pis :=
        if wasBalanced ∧ wasPartitioned ∧ hint = .increasing then
          goPartialInsertionSort less l2 a b
        else (l2, false)
      if pis.2 then pis.1
      else
        let l3 := pis.1
        if 0 < a ∧ goLess less l3 (a - 1) pivot = false then
          let pe := goPartitionEqual less l3 a b pivot
          goPdqsort less fuel pe.1 pe.2 b limit1 wasBalanced wasPartitioned
        else
          let pr := goPartition less l3 a b pivot
          let mid := pr.2.1
          let leftLen := mid - a
          let rightLen := b - mid
          let wasBalanced1 := decide (min leftLen rightLen ≥ length / 8)
          let wasPartitioned1 := pr.2.2
          if leftLen < rightLen then
            let l5 := goPdqsort less fuel pr.1 a mid limit1 true true
            goPdqsort less fuel l5 (mid + 1) b limit1 wasBalanced1 wasPartitioned1
          else
            let l5 := goPdqsort less fuel pr.1 (mid + 1) b limit1 true true
            goPdqsort less fuel l5 a mid limit1 wasBalanced1 wasPartitioned1

/-- `sort.Slice(x, less)`: `limit = bits.Len(uint(n))`; the fuel bounds
the loop/recursion depth, which never exceeds `n + limit + 2`. -/
def goSortSlice {α : Type} [Inhabited α] (less : α → α → Bool) (l : List α) : List α :=
  goPdqsort less (l.length + goBitsLen l.length + 2) l 0 l.length (goBitsLen l.length)
    true true

/-- The comparison of `GetWorkerPool`'s `sort.Slice` call:
`Workers[i].CreatedAt < Workers[j].CreatedAt`. -/
def workerLess (x y : Worker) : Bool := decide (x.createdAt < y.createdAt)

/-- `Controller.GetWorkerPool` (`internal/controller.go` lines 175-212;
identically in `part_011` lines 55-92), after the GraphQL read: the
in-place `worker_index` loop drops drained workers keeping the original
order, then `sort.Slice` reorders by `CreatedAt`. -/
def GetWorkerPool (raw : WorkerPool) : WorkerPool :=
  { pendingRuns := raw.pendingRuns,
    workers := goSortSlice workerLess (raw.workers.filter (fun w => !w.drained)) }

/-- Sortedness by `CreatedAt` (non-strict, ascending). -/
abbrev SortedByCreatedAt (l : List Worker) : Prop :=
  List.Pairwise (fun a b => a.createdAt ≤ b.createdAt) l

/-- Ordered insertion from the left, placing a worker after every
element whose `createdAt` is `≤` its own: the list-level effect of the
Go insertion-sort inner loop on a sorted prefix. -/
def insertW (x : Worker) : List Worker → List Worker
  | [] => [x]
  | y :: rest => if x.createdAt < y.createdAt then x :: y :: rest else y :: insertW x rest

/-- The list-level effect of `insertionSort_func` on the whole range. -/
def insSortSpec (l : List Worker) : List Worker :=
  l.foldl (fun acc x => insertW x acc) []

theorem insertW_length (x : Worker) (l : List Worker) :
    (insertW x l).length = l.length + 1 := by
  induction l with
  | nil => rfl
  | cons y rest ih =>
    unfold insertW
    split_ifs <;> simp [ih]

theorem insertW_perm (x : Worker) (l : List Worker) : List.Perm (insertW x l) (x :: l) := by
  induction l with
  | nil => exact List.Perm.refl _
  | cons y rest ih =>
    unfold insertW
    split_ifs
    · exact List.Perm.refl _
    · exact (ih.cons y).trans (List.Perm.swap x y rest)

theorem insertW_sorted (x : Worker) (l : List Worker) (h : SortedByCreatedAt l) :
    SortedByCreatedAt (insertW x l) := by
  induction l with
  | nil => simp [insertW]
  | cons y rest ih =>
    rcases List.pairwise_cons.mp h with ⟨hy, hrest⟩
    unfold insertW
    split_ifs with hlt
    · refine List.pairwise_cons.mpr ⟨?_, h⟩
      intro b hb
      rcases List.mem_cons.mp hb with rfl | hb
      · omega
      · have := hy b hb
        omega
    · refine List.pairwise_cons.mpr ⟨?_, ih hrest⟩
      intro b hb
      rcases List.mem_cons.mp ((insertW_perm x rest).mem_iff.mp hb) with rfl | hb
      · omega
      · exact hy b hb

theorem insertW_append_last (x y : Worker) (q : List Worker)
    (h : SortedByCreatedAt (q ++ [y])) :
    insertW x (q ++ [y]) =
      if x.createdAt < y.createdAt then insertW x q ++ [y] else q ++ [y, x] := by
  induction q with
  | nil => simp [insertW]
  | cons z q ih =>
    rcases List.pairwise_cons.mp h with ⟨hz, hq⟩
    have hzy : z.createdAt ≤ y.createdAt := hz y (by simp)
    simp only [List.cons_append, insertW, List.append_eq]
    split_ifs with h₁ h₂ h₂
    · simp [insertW, h₁]
    · omega
    · rw [ih hq, if_pos h₂]
      simp
    · rw [ih hq, if_neg h₂]

theorem insertW_filter (x : Worker) (c : Int) :
    ∀ l : List Worker, SortedByCreatedAt l →
    (insertW x l).filter (fun w => w.createdAt = c) =
      if x.createdAt = c then (l.filter (fun w => w.createdAt = c)) ++ [x]
      else l.filter (fun w => w.createdAt = c) := by
  intro l
  induction l with
  | nil =>
    intro _
    simp only [insertW, List.filter_nil]
    split_ifs with hc <;> simp [hc]
  | cons y rest ih =>
    intro h
    rcases List.pairwise_cons.mp h with ⟨hy, hrest⟩
    unfold insertW
    split_ifs with hxy hc hc
    · have hnil : (y :: rest).filter (fun w => w.createdAt = c) = [] := by
        rw [List.filter_eq_nil_iff]
        intro w hw
        rcases List.mem_cons.mp hw with rfl | hw
        · simp only [decide_eq_true_eq]
          omega
        · have := hy w hw
          simp only [decide_eq_true_eq]
          omega
      rw [List.filter_cons, hnil]
      simp [hc]
    · simp [List.filter_cons, hc]
    · simp only [List.filter_cons, ih hrest, if_pos hc]
      by_cases hyc : y.createdAt = c <;> simp [hyc]
    · simp only [List.filter_cons, ih hrest, if_neg hc]

theorem foldl_insertW_sorted :
    ∀ (rest acc : List Worker), SortedByCreatedAt acc →
    SortedByCreatedAt (rest.foldl (fun acc x => insertW x acc) acc) := by
  intro rest
  induction rest with
  | nil => intro acc h; exact h
  | cons x rest ih =>
    intro acc h
    exact ih (insertW x acc) (insertW_sorted x acc h)

theorem foldl_insertW_perm :
    ∀ (rest acc : List Worker),
    List.Perm (rest.foldl (fun acc x => insertW x acc) acc) (acc ++ rest) := by
  intro rest
  induction rest with
  | nil => intro acc; simp
  | cons x rest ih =>
    intro acc
    exact ((ih (insertW x acc)).trans
      (((insertW_perm x acc).append_right rest).trans List.perm_middle.symm))

theorem foldl_insertW_filter (c : Int) :
    ∀ (rest acc : List Worker), SortedByCreatedAt acc →
    (rest.foldl (fun acc x => insertW x acc) acc).filter (fun w => w.createdAt = c) =
      acc.filter (fun w => w.createdAt = c) ++ rest.filter (fun w => w.createdAt = c) := by
  intro rest
  induction rest with
  | nil => intro acc _; simp
  | cons x rest ih =>
    intro acc h
    have step := ih (insertW x acc) (insertW_sorted x acc h)
    rw [List.foldl_cons, step, insertW_filter x c acc h, List.filter_cons]
    by_cases hc : x.createdAt = c <;> simp [hc]

theorem getD_append_length (q : List Worker) (x : Worker) (s : List Worker) :
    (q ++ x :: s).getD q.length default = x := by
  induction q with
  | nil => rfl
  | cons z q ih => simpa using ih

theorem set_append_length (q : List Worker) (z v : Worker) (s : List Worker) :
    (q ++ z :: s).set q.length v = q ++ v :: s := by
  induction q with
  | nil => rfl
  | cons w q ih => simp [ih]

theorem goSwap_adjacent (q : List Worker) (y x : Worker) (s : List Worker) :
    goSwap (q ++ y :: x :: s) (q.length + 1) q.length = q ++ x :: y :: s := by
  have hassoc : q ++ y :: x :: s = (q ++ [y]) ++ x :: s := by simp
  have hg1 : goGet (q ++ y :: x :: s) q.length = y := getD_append_length q y (x :: s)
  have hg2 : goGet (q ++ y :: x :: s) (q.length + 1) = x := by
    unfold goGet
    rw [hassoc, show q.length + 1 = (q ++ [y]).length by simp]
    exact getD_append_length (q ++ [y]) x s
  unfold goSwap
  rw [if_pos (by constructor <;> simp)]
  rw [hg1, hg2]
  rw [hassoc, show q.length + 1 = (q ++ [y]).length by simp,
    set_append_length (q ++ [y]) x y s]
  rw [show (q ++ [y]) ++ y :: s = q ++ y :: y :: s by simp,
    set_append_length q y x (y :: s)]

theorem goInsSortInner_spec :
    ∀ (p : List Worker), SortedByCreatedAt p → ∀ (x : Worker) (s : List Worker),
    goInsSortInner workerLess (p ++ x :: s) 0 p.length = insertW x p ++ s := by
  intro p
  induction p using List.reverseRecOn with
  | nil =>
    intro _ x s
    rfl
  | append_singleton q y ih =>
    intro hp x s
    have hq : SortedByCreatedAt q := (List.pairwise_append.mp hp).1
    have hlen : (q ++ [y]).length = q.length + 1 := by simp
    have hassoc : (q ++ [y]) ++ x :: s = q ++ y :: x :: s := by simp
    have hgx : goGet ((q ++ [y]) ++ x :: s) (q.length + 1) = x := by
      unfold goGet
      rw [← hlen]
      exact getD_append_length (q ++ [y]) x s
    have hgy : goGet ((q ++ [y]) ++ x :: s) q.length = y := by
      unfold goGet
      rw [hassoc]
      exact getD_append_length q y (x :: s)
    have hless : goLess workerLess ((q ++ [y]) ++ x :: s) (q.length + 1) q.length =
        decide (x.createdAt < y.createdAt) := by
      unfold goLess
      rw [hgx, hgy]
      rfl
    rw [hlen, goInsSortInner]
    by_cases hxy : x.createdAt < y.createdAt
    · have hcond : 0 < q.length + 1 ∧
          goLess workerLess ((q ++ [y]) ++ x :: s) (q.length + 1) q.length = true := by
        refine ⟨by omega, ?_⟩
        rw [hless]
        simpa using hxy
      rw [if_pos hcond]
      have hswap : goSwap ((q ++ [y]) ++ x :: s) (q.length + 1) q.length =
          q ++ x :: y :: s := by
        rw [hassoc]
        exact goSwap_adjacent q y x s
      rw [hswap]
      rw [ih hq x (y :: s)]
      rw [insertW_append_last x y q hp, if_pos hxy]
      simp
    · have hcond : ¬(0 < q.length + 1 ∧
          goLess workerLess ((q ++ [y]) ++ x :: s) (q.length + 1) q.length = true) := by
        rintro ⟨-, hlt⟩
        rw [hless] at hlt
        simp at hlt
        omega
      rw [if_neg hcond]
      rw [insertW_append_last x y q hp, if_neg hxy]
      simp

theorem goInsSortOuter_spec :
    ∀ (rest acc : List Worker) (fuel : Nat), rest.length ≤ fuel → SortedByCreatedAt acc →
    goInsSortOuter workerLess fuel (acc ++ rest) 0 (acc.length + rest.length) acc.length =
      rest.foldl (fun acc x => insertW x acc) acc := by
  intro rest
  induction rest with
  | nil =>
    intro acc fuel _ _
    match fuel with
    | 0 => simp [goInsSortOuter]
    | fuel + 1 =>
      rw [goInsSortOuter, if_neg (by simp)]
      simp
  | cons x rest ih =>
    intro acc fuel hfuel hacc
    match fuel with
    | 0 => simp at hfuel
    | fuel + 1 =>
      rw [goInsSortOuter, if_pos (by simp)]
      rw [goInsSortInner_spec acc hacc x rest]
      have hlen : (insertW x acc).length = acc.length + 1 := insertW_length x acc
      have h := ih (insertW x acc) fuel (by simpa using hfuel) (insertW_sorted x acc hacc)
      rw [hlen] at h
      simp only [List.length_cons, List.foldl_cons]
      rw [show acc.length + (rest.length + 1) = acc.length + 1 + rest.length by omega]
      exact h

theorem goInsertionSort_spec (l : List Worker) :
    goInsertionSort workerLess l 0 l.length = insSortSpec l := by
  cases l with
  | nil => rfl
  | cons x xs =>
    unfold goInsertionSort insSortSpec
    have h := goInsSortOuter_spec xs [x] (xs.length + 1) (by omega)
      (by simp [SortedByCreatedAt])
    simp only [List.singleton_append, List.length_singleton] at h
    simp only [List.length_cons, Nat.zero_add, List.foldl_cons]
    rw [show xs.length + 1 = 1 + xs.length by omega]
    rw [show insertW x [] = [x] from rfl]
    rw [show 1 + xs.length = xs.length + 1 by omega] at h ⊢
    exact h

theorem goSortSlice_of_short (l : List Worker) (h : l.length ≤ 12) :
    goSortSlice workerLess l = insSortSpec l := by
  unfold goSortSlice
  rw [show l.length + goBitsLen l.length + 2 = (l.length + goBitsLen l.length + 1) + 1
    from rfl]
  rw [goPdqsort]
  rw [if_pos (by omega)]
  exact goInsertionSort_spec l

theorem getD_cons_set_perm {α : Type} [Inhabited α] :
    ∀ (l : List α) (m : Nat) (v : α), m < l.length →
    List.Perm (l.getD m default :: l.set m v) (v :: l) := by
  intro l
  induction l with
  | nil => intro m v h; simp at h
  | cons b l ih =>
    intro m v h
    match m with
    | 0 => exact List.Perm.swap v b l
    | m + 1 =>
      have hm : m < l.length := by simpa using h
      have step := (ih m v hm).cons b
      have e : (b :: l).getD (m + 1) default :: (b :: l).set (m + 1) v =
          l.getD m default :: b :: l.set m v := by simp
      rw [e]
      exact (List.Perm.swap b (l.getD m default) (l.set m v)).trans
        (step.trans (List.Perm.swap v b l))

theorem set_set_perm {α : Type} [Inhabited α] :
    ∀ (l : List α) (i j : Nat), i < l.length → j < l.length →
    List.Perm ((l.set i (l.getD j default)).set j (l.getD i default)) l := by
  intro l
  induction l with
  | nil => intro i j h; simp at h
  | cons a l ih =>
    intro i j hi hj
    match i, j with
    | 0, 0 => simp
    | 0, m + 1 =>
      have hm : m < l.length := by simpa using hj
      simp only [List.getD_cons_succ, List.getD_cons_zero, List.set_cons_zero,
        List.set_cons_succ]
      exact getD_cons_set_perm l m a hm
    | m + 1, 0 =>
      have hm : m < l.length := by simpa using hi
      simp only [List.getD_cons_succ, List.getD_cons_zero, List.set_cons_zero,
        List.set_cons_succ]
      exact ((getD_cons_set_perm l m a hm).symm.trans (List.Perm.refl _)).symm
    | m + 1, k + 1 =>
      have hm : m < l.length := by simpa using hi
      have hk : k < l.length := by simpa using hj
      simpa using (ih m k hm hk).cons a

theorem goSwap_perm {α : Type} [Inhabited α] (l : List α) (i j : Nat) :
    List.Perm (goSwap l i j) l := by
  unfold goSwap
  split_ifs with h
  · exact set_set_perm l i j h.1 h.2
  · exact List.Perm.refl l

theorem goInsSortInner_perm {α : Type} [Inhabited α] (less : α → α → Bool) :
    ∀ (j : Nat) (l : List α) (a : Nat), List.Perm (goInsSortInner less l a j) l := by
  intro j
  induction j with
  | zero => intro l a; exact List.Perm.refl l
  | succ j ih =>
    intro l a
    rw [goInsSortInner]
    split_ifs with h
    · exact (ih _ a).trans (goSwap_perm l (j + 1) j)
    · exact List.Perm.refl l

theorem goInsSortOuter_perm {α : Type} [Inhabited α] (less : α → α → Bool) :
    ∀ (fuel : Nat) (l : List α) (a b i : Nat),
    List.Perm (goInsSortOuter less fuel l a b i) l := by
  intro fuel
  induction fuel with
  | zero => intro l a b i; exact List.Perm.refl l
  | succ fuel ih =>
    intro l a b i
    rw [goInsSortOuter]
    split_ifs with h
    · exact (ih _ a b (i + 1)).trans (goInsSortInner_perm less i l a)
    · exact List.Perm.refl l

theorem goInsertionSort_perm {α : Type} [Inhabited α] (less : α → α → Bool)
    (l : List α) (a b : Nat) : List.Perm (goInsertionSort less l a b) l :=
  goInsSortOuter_perm less b l a b (a + 1)

theorem goSiftDownF_perm {α : Type} [Inhabited α] (less : α → α → Bool) :
    ∀ (fuel : Nat) (l : List α) (root hi first : Nat),
    List.Perm (goSiftDownF less fuel l root hi first) l := by
  intro fuel
  induction fuel with
  | zero => intro l root hi first; exact List.Perm.refl l
  | succ fuel ih =>
    intro l root hi first
    rw [goSiftDownF]
    dsimp only
    split_ifs with h₁ h₂ h₃ h₃
    · exact List.Perm.refl l
    · exact (ih _ _ hi first).trans (goSwap_perm _ _ _)
    · exact List.Perm.refl l
    · exact (ih _ _ hi first).trans (goSwap_perm _ _ _)
    · exact List.Perm.refl l

theorem goSiftDown_perm {α : Type} [Inhabited α] (less : α → α → Bool)
    (l : List α) (root hi first : Nat) :
    List.Perm (goSiftDown less l root hi first) l :=
  goSiftDownF_perm less hi l root hi first

theorem goHeapBuild_perm {α : Type} [Inhabited α] (less : α → α → Bool) :
    ∀ (i : Nat) (l : List α) (hi first : Nat),
    List.Perm (goHeapBuild less l i hi first) l := by
  intro i
  induction i with
  | zero => intro l hi first; exact goSiftDown_perm less l 0 hi first
  | succ i ih =>
    intro l hi first
    exact (ih _ hi first).trans (goSiftDown_perm less l (i + 1) hi first)

theorem goHeapPop_perm {α : Type} [Inhabited α] (less : α → α → Bool) :
    ∀ (i : Nat) (l : List α) (first : Nat),
    List.Perm (goHeapPop less l i first) l := by
  intro i
  induction i with
  | zero =>
    intro l first
    exact (goSiftDown_perm less _ 0 0 first).trans (goSwap_perm _ _ _)
  | succ i ih =>
    intro l first
    exact (ih _ first).trans
      ((goSiftDown_perm less _ 0 (i + 1) first).trans (goSwap_perm _ _ _))

theorem goHeapSort_perm {α : Type} [Inhabited α] (less : α → α → Bool)
    (l : List α) (a b : Nat) : List.Perm (goHeapSort less l a b) l := by
  unfold goHeapSort
  dsimp only
  split_ifs with h
  · exact goHeapBuild_perm less _ l (b - a) a
  · exact (goHeapPop_perm less _ _ a).trans (goHeapBuild_perm less _ l (b - a) a)

theorem goReverseRangeF_perm {α : Type} [Inhabited α] :
    ∀ (fuel : Nat) (l : List α) (i j : Nat),
    List.Perm (goReverseRangeF fuel l i j) l := by
  intro fuel
  induction fuel with
  | zero => intro l i j; exact List.Perm.refl l
  | succ fuel ih =>
    intro l i j
    rw [goReverseRangeF]
    split_ifs with h
    · exact (ih _ (i + 1) (j - 1)).trans (goSwap_perm l i j)
    · exact List.Perm.refl l

theorem goReverseRange_perm {α : Type} [Inhabited α] (l : List α) (i j : Nat) :
    List.Perm (goReverseRange l i j) l :=
  goReverseRangeF_perm j l i j

theorem goBreakPatterns_perm {α : Type} [Inhabited α] (l : List α) (a b : Nat) :
    List.Perm (goBreakPatterns l a b) l := by
  unfold goBreakPatterns
  dsimp only
  split_ifs with h <;>
    first
      | exact List.Perm.refl l
      | exact (goSwap_perm _ _ _).trans ((goSwap_perm _ _ _).trans (goSwap_perm _ _ _))

theorem goPartitionLoop_perm {α : Type} [Inhabited α] (less : α → α → Bool) :
    ∀ (fuel : Nat) (l : List α) (aIdx i j : Nat),
    List.Perm (goPartitionLoop less fuel l aIdx i j).1 l := by
  intro fuel
  induction fuel with
  | zero => intro l aIdx i j; exact List.Perm.refl l
  | succ fuel ih =>
    intro l aIdx i j
    rw [goPartitionLoop]
    split_ifs with h
    · exact List.Perm.refl l
    · exact (ih _ aIdx _ _).trans (goSwap_perm _ _ _)

theorem goPartition_perm {α : Type} [Inhabited α] (less : α → α → Bool)
    (l : List α) (a b pivot : Nat) :
    List.Perm (goPartition less l a b pivot).1 l := by
  unfold goPartition
  dsimp only
  split_ifs with h
  · exact (goSwap_perm _ _ _).trans (goSwap_perm _ _ _)
  · exact (goSwap_perm _ _ _).trans
      ((goPartitionLoop_perm less b _ a _ _).trans
        ((goSwap_perm _ _ _).trans (goSwap_perm _ _ _)))

theorem goPartitionEqualLoop_perm {α : Type} [Inhabited α] (less : α → α → Bool) :
    ∀ (fuel : Nat) (l : List α) (aIdx i j : Nat),
    List.Perm (goPartitionEqualLoop less fuel l aIdx i j).1 l := by
  intro fuel
  induction fuel with
  | zero => intro l aIdx i j; exact List.Perm.refl l
  | succ fuel ih =>
    intro l aIdx i j
    rw [goPartitionEqualLoop]
    split_ifs with h
    · exact List.Perm.refl l
    · exact (ih _ aIdx _ _).trans (goSwap_perm _ _ _)

theorem goPartitionEqual_perm {α : Type} [Inhabited α] (less : α → α → Bool)
    (l : List α) (a b pivot : Nat) :
    List.Perm (goPartitionEqual less l a b pivot).1 l := by
  unfold goPartitionEqual
  exact (goPartitionEqualLoop_perm less b _ a _ _).trans (goSwap_perm _ _ _)

theorem goPISLeft_perm {α : Type} [Inhabited α] (less : α → α → Bool) :
    ∀ (j : Nat) (l : List α), List.Perm (goPISLeft less l j) l := by
  intro j
  induction j with
  | zero => intro l; exact List.Perm.refl l
  | succ j ih =>
    intro l
    rw [goPISLeft]
    split_ifs with h
    · exact List.Perm.refl l
    · exact (ih _).trans (goSwap_perm _ _ _)

theorem goPISRightF_perm {α : Type} [Inhabited α] (less : α → α → Bool) :
    ∀ (fuel : Nat) (l : List α) (b j : Nat),
    List.Perm (goPISRightF less fuel l b j) l := by
  intro fuel
  induction fuel with
  | zero => intro l b j; exact List.Perm.refl l
  | succ fuel ih =>
    intro l b j
    rw [goPISRightF]
    split_ifs with h₁ h₂
    · exact List.Perm.refl l
    · exact (ih _ b (j + 1)).trans (goSwap_perm _ _ _)
    · exact List.Perm.refl l

theorem goPISRight_perm {α : Type} [Inhabited α] (less : α → α → Bool)
    (l : List α) (b j : Nat) : List.Perm (goPISRight less l b j) l :=
  goPISRightF_perm less (b - j) l b j

theorem goPISOuter_perm {α : Type} [Inhabited α] (less : α → α → Bool) :
    ∀ (steps : Nat) (l : List α) (a b i : Nat),
    List.Perm (goPISOuter less l a b i steps).1 l := by
  intro steps
  induction steps with
  | zero => intro l a b i; exact List.Perm.refl l
  | succ steps ih =>
    intro l a b i
    rw [goPISOuter]
    dsimp only
    split_ifs <;>
      first
        | exact List.Perm.refl l
        | exact (ih _ a b _).trans
            ((goPISRight_perm less _ b _).trans
              ((goPISLeft_perm less _ _).trans (goSwap_perm _ _ _)))
        | exact (ih _ a b _).trans
            ((goPISRight_perm less _ b _).trans (goSwap_perm _ _ _))
        | exact (ih _ a b _).trans
            ((goPISLeft_perm less _ _).trans (goSwap_perm _ _ _))
        | exact (ih _ a b _).trans (goSwap_perm _ _ _)

theorem goPartialInsertionSort_perm {α : Type} [Inhabited α] (less : α → α → Bool)
    (l : List α) (a b : Nat) :
    List.Perm (goPartialInsertionSort less l a b).1 l :=
  goPISOuter_perm less 5 l a b (a + 1)

set_option maxHeartbeats 1000000 in
theorem goPdqsort_perm {α : Type} [Inhabited α] (less : α → α → Bool) :
    ∀ (fuel : Nat) (l : List α) (a b limit : Nat) (wb wp : Bool),
    List.Perm (goPdqsort less fuel l a b limit wb wp) l := by
  intro fuel
  induction fuel with
  | zero => intro l a b limit wb wp; exact List.Perm.refl l
  | succ fuel ih =>
    intro l a b limit wb wp
    rw [goPdqsort]
    dsimp only
    by_cases h₁ : b - a ≤ 12
    · rw [if_pos h₁]
      exact goInsertionSort_perm less l a b
    rw [if_neg h₁]
    by_cases h₂ : limit = 0
    · rw [if_pos h₂]
      exact goHeapSort_perm less l a b
    rw [if_neg h₂]
    generalize hL1 : (if wb = false then goBreakPatterns l a b else l) = l1
    have hpl1 : List.Perm l1 l := by
      rw [← hL1]
      split_ifs
      · exact goBreakPatterns_perm l a b
      · exact List.Perm.refl l
    generalize (if wb = false then limit - 1 else limit) = limit1
    generalize hcp : goChoosePivot less l1 a b = cp
    generalize hL2 : (if cp.2 = SortedHint.decreasing then goReverseRange l1 a (b - 1)
      else l1) = l2
    have hpl2 : List.Perm l2 l1 := by
      rw [← hL2]
      split_ifs
      · exact goReverseRange_perm l1 a (b - 1)
      · exact List.Perm.refl l1
    generalize (if cp.2 = SortedHint.decreasing then b - 1 - (cp.1 - a) else cp.1) = pivot
    generalize (if cp.2 = SortedHint.decreasing then SortedHint.increasing else cp.2) = hint
    generalize hpis : (if wb ∧ wp ∧ hint = SortedHint.increasing then
      goPartialInsertionSort less l2 a b else (l2, false)) = pis
    have hppis : List.Perm pis.1 l2 := by
      rw [← hpis]
      split_ifs
      · exact goPartialInsertionSort_perm less l2 a b
      · exact List.Perm.refl l2
    have hbase : List.Perm pis.1 l := (hppis.trans hpl2).trans hpl1
    split_ifs with h₃ h₄
    · exact hbase
    · exact (ih _ _ _ _ _ _).trans ((goPartitionEqual_perm less pis.1 a b _).trans hbase)
    · exact (ih _ _ _ _ _ _).trans
        ((ih _ _ _ _ _ _).trans ((goPartition_perm less pis.1 a b _).trans hbase))
    · exact (ih _ _ _ _ _ _).trans
        ((ih _ _ _ _ _ _).trans ((goPartition_perm less pis.1 a b _).trans hbase))

theorem goSortSlice_perm {α : Type} [Inhabited α] (less : α → α → Bool) (l : List α) :
    List.Perm (goSortSlice less l) l :=
  goPdqsort_perm less _ l 0 l.length (goBitsLen l.length) true true

/-- C6 (amended): for every worker list whose non-drained part has at
most 12 workers, `GetWorkerPool` returns exactly the workers with
`Drained = false` (as a permutation), sorted ascending by `CreatedAt`,
and stably so: any two non-drained workers with equal `CreatedAt` keep
their original relative order (for larger pools `sort.Slice` takes the
unstable partitioning path — see the counterexample). -/
theorem claim6_amended_get_worker_pool (raw : WorkerPool)
    (h : (raw.workers.filter (fun w => !w.drained)).length ≤ 12) :
    (GetWorkerPool raw).pendingRuns = raw.pendingRuns ∧
    SortedByCreatedAt (GetWorkerPool raw).workers ∧
    List.Perm (GetWorkerPool raw).workers (raw.workers.filter (fun w => !w.drained)) ∧
    (∀ c : Int, (GetWorkerPool raw).workers.filter (fun w => w.createdAt = c) =
      (raw.workers.filter (fun w => !w.drained)).filter (fun w => w.createdAt = c)) := by
  unfold GetWorkerPool
  dsimp only
  rw [goSortSlice_of_short _ h]
  unfold insSortSpec
  refine ⟨rfl, ?_, ?_, ?_⟩
  · exact foldl_insertW_sorted _ [] (by simp [SortedByCreatedAt])
  · simpa using foldl_insertW_perm (raw.workers.filter (fun w => !w.drained)) []
  · intro c
    simpa using foldl_insertW_filter c (raw.workers.filter (fun w => !w.drained)) []
      (by simp [SortedByCreatedAt])

/-- A small raw pool for the C6 witness: one drained worker between two
non-drained ones that arrive out of `CreatedAt` order, plus a
`CreatedAt` tie to exercise stability. -/
def c6small : WorkerPool :=
  { pendingRuns := 2,
    workers :=
      [{ id := "wa", busy := false, createdAt := 5, drained := false, metadata := [] },
       { id := "wd", busy := false, createdAt := 1, drained := true, metadata := [] },
       { id := "wb", busy := true, createdAt := 3, drained := false, metadata := [] },
       { id := "wc", busy := false, createdAt := 5, drained := false, metadata := [] }] }

/-- C6 witness: the amended claim at `c6small` — the drained worker is
dropped, the rest are stably sorted (`wb`, then `wa` before its
equal-`CreatedAt` peer `wc`). -/
theorem claim6_amended_get_worker_pool_witness :
    (c6small.workers.filter (fun w => !w.drained)).length ≤ 12 ∧
    ((GetWorkerPool c6small).workers.map (fun w => w.id) = ["wb", "wa", "wc"] ∧
      SortedByCreatedAt (GetWorkerPool c6small).workers) :=
  ⟨by decide,
    ⟨by decide, (claim6_amended_get_worker_pool c6small (by decide)).2.1⟩⟩

/-- A worker with the given id suffix and creation time (helper for the
C6 counterexample pool). -/
def c6w (n : Nat) (c : Int) : Worker :=
  { id := "w" ++ toString n, busy := false, createdAt := c, drained := false, metadata := [] }

/-- The C6 counterexample pool: thirteen non-drained workers — `w0` with
`CreatedAt = 1`, `w1` … `w12` with `CreatedAt = 0` — enough to push
`sort.Slice` past its insertion-sort cutoff of 12 into the partitioning
path. -/
def c6big : WorkerPool :=
  { pendingRuns := 0,
    workers :=
      [c6w 0 1, c6w 1 0, c6w 2 0, c6w 3 0, c6w 4 0, c6w 5 0, c6w 6 0,
       c6w 7 0, c6w 8 0, c6w 9 0, c6w 10 0, c6w 11 0, c6w 12 0] }

/-- C6 counterexample: on `c6big`, `GetWorkerPool` (whose `sort.Slice`
is Go's unstable pdqsort) moves `w6` in front of `w1` … `w5` although
all of them share `CreatedAt = 0` and `w1` came first — the claimed
stability ("any two non-drained workers with equal CreatedAt keep their
original relative order") fails. -/
theorem claim6_counterexample :
    ((GetWorkerPool c6big).workers.map (fun w => w.id)) =
      ["w6", "w1", "w2", "w3", "w4", "w5", "w7", "w8", "w9", "w10", "w11", "w12", "w0"] ∧
    ((GetWorkerPool c6big).workers.filter (fun w => w.createdAt = 0)).map (fun w => w.id) =
      ["w6", "w1", "w2", "w3", "w4", "w5", "w7", "w8", "w9", "w10", "w11", "w12"] ∧
    ¬((GetWorkerPool c6big).workers.filter (fun w => w.createdAt = 0) =
      (c6big.workers.filter (fun w => !w.drained)).filter (fun w => w.createdAt = 0)) := by
  refine ⟨?_, ?_, ?_⟩ <;> decide


theorem foldl_workersById_mem (S : List Worker) :
    ∀ (ws : List Worker) (acc : List (String × Worker)),
    (∀ q ∈ acc, q.2 ∈ S) → (∀ w ∈ ws, w ∈ S) →
    ∀ p ∈ ws.foldl
      (fun m w =>
        let iid := (w.instanceIdentity).1.2
        if m.lookup iid |>.isSome then m.map (fun p => if p.1 = iid then (iid, w) else p)
        else m ++ [(iid, w)])
      acc, p.2 ∈ S := by
  intro ws
  induction ws with
  | nil => intro acc hacc _ p hp; exact hacc p hp
  | cons w ws ih =>
    intro acc hacc hws p hp
    refine ih _ ?_ (fun w' hw' => hws w' (List.mem_cons_of_mem w hw')) p hp
    intro q hq
    dsimp only at hq
    split_ifs at hq with hl
    · rcases List.mem_map.mp hq with ⟨r, hr, hrq⟩
      by_cases hr1 : r.1 = w.instanceIdentity.1.2
      · rw [if_pos hr1] at hrq
        rw [← hrq]
        exact hws w (List.mem_cons_self w ws)
      · rw [if_neg hr1] at hrq
        rw [← hrq]
        exact hacc r hr
    · rcases List.mem_append.mp hq with hq | hq
      · exact hacc q hq
      · rw [List.mem_singleton.mp hq]
        exact hws w (List.mem_cons_self w ws)

theorem workersByInstanceID_mem (wp : WorkerPool) :
    ∀ p ∈ workersByInstanceID wp, p.2 ∈ wp.workers :=
  foldl_workersById_mem wp.workers wp.workers [] (by simp) (fun _ h => h)

/-- C10: in the composed pipeline the drained-worker branch of stray
detection is vacuous: for any `State` built from a `GetWorkerPool`
result, `detachedNotTerminatedInstances` is empty, `StrayInstances`
coincides with the older formulation that has no drained-worker branch,
and both reduce to exactly the in-service instance ids with no
corresponding worker. -/
theorem claim10_stray_detached_vacuous (raw : WorkerPool) (asg : AutoScalingGroup) :
    detachedNotTerminatedInstances (GetWorkerPool raw) asg = [] ∧
    strayInstances (GetWorkerPool raw) asg = strayInstancesOld (GetWorkerPool raw) asg ∧
    (∀ iid, iid ∈ strayInstances (GetWorkerPool raw) asg ↔
      (iid ∈ inServiceInstanceIDs asg ∧
        ¬((workersByInstanceID (GetWorkerPool raw)).lookup iid).isSome)) := by
  have hnd : ∀ w ∈ (GetWorkerPool raw).workers, w.drained = false := by
    intro w hw
    have hmem : w ∈ raw.workers.filter (fun w => !w.drained) :=
      (goSortSlice_perm workerLess (raw.workers.filter (fun w => !w.drained))).mem_iff.mp hw
    simpa using (List.mem_filter.mp hmem).2
  have hdet : detachedNotTerminatedInstances (GetWorkerPool raw) asg = [] := by
    unfold detachedNotTerminatedInstances
    rw [List.map_eq_nil_iff, List.filter_eq_nil_iff]
    intro p hp
    have := hnd p.2 (workersByInstanceID_mem _ p hp)
    simp [this]
  have hstray : strayInstances (GetWorkerPool raw) asg =
      strayInstancesOld (GetWorkerPool raw) asg := by
    unfold strayInstances strayInstancesOld
    rw [hdet, List.append_nil]
  refine ⟨hdet, hstray, ?_⟩
  intro iid
  rw [hstray]
  unfold strayInstancesOld
  rw [List.mem_filter]
  constructor
  · rintro ⟨h₁, h₂⟩
    rw [Bool.not_eq_true'] at h₂
    exact ⟨h₁, by simp [h₂]⟩
  · rintro ⟨h₁, h₂⟩
    refine ⟨h₁, ?_⟩
    rw [Bool.not_eq_true']
    exact Bool.eq_false_iff.mpr h₂
